import Mathlib

/-!
Verification of the Stream2Graph real-time streaming core against its
natural-language specification.

This file is a shallow embedding, in Lean 4, of the parts of the repository
that the checked claims are about:

* `scripts/streaming_intent_engine.py` — tokenizer, online intent
  classifier, segmentation buffer with adaptive wait-k, keyword extraction,
  operation synthesis, dispatch/flush;
* `scripts/incremental_renderer.py` — incremental layout with local
  relaxation of new nodes and per-frame stability metrics;
* `scripts/evaluate_realtime_pipeline.py` — threshold evaluator;
* `tools/unified_pretrain_eval.py` — dataset readiness scoring.

Modelling conventions:

* Python floats are modelled as exact rationals (`ℚ`); `round(x, n)` is
  modelled as round-half-to-even on the decimal grid (`pyRound`), which is
  Python's behaviour on exactly representable values.
* Python strings are Lean `String`s processed as `List Char`; `str.lower`
  is modelled for ASCII letters (the inputs of interest are ASCII + CJK,
  which Python's `lower` leaves unchanged except for ASCII letters), and
  `str.strip` strips the standard whitespace characters.
* Python dicts that only serve as insertion-ordered multisets/counters are
  modelled as insertion-ordered association lists.
* Wall-clock reads (`time.time()`) are threaded through as an explicit
  integer argument.
-/

namespace Stream2Graph

/-! ## String utilities (Python `lower` / `strip` / substring / split) -/

/-- ASCII lower-casing of a character, as Python `str.lower` acts on the
ASCII range (CJK characters are unaffected by `lower`). -/
def lowerChar (c : Char) : Char :=
  if 'A' ≤ c ∧ c ≤ 'Z' then Char.ofNat (c.toNat + 32) else c

/-- Python `str.lower`, restricted to ASCII case mapping. -/
def lowerStr (s : List Char) : List Char := s.map lowerChar

/-- Whitespace recognised by Python `str.strip` (the common cases). -/
def isWs (c : Char) : Bool :=
  c = ' ' ∨ c = '\t' ∨ c = '\n' ∨ c = '\r' ∨ c = '\x0c' ∨ c = '\x0b'

/-- Python `str.strip`. -/
def trimS (s : List Char) : List Char :=
  ((s.dropWhile isWs).reverse.dropWhile isWs).reverse

/-- Does `hay` start with `needle`? (Python `str.startswith`.) -/
def strHasPre : List Char → List Char → Bool
  | [], _ => true
  | _ :: _, [] => false
  | a :: as, b :: bs => a = b && strHasPre as bs

/-- Does `hay` contain `needle` as a contiguous substring?
(Python `needle in hay`.) -/
def strHasSub (needle : List Char) : List Char → Bool
  | [] => needle.isEmpty
  | b :: bs => strHasPre needle (b :: bs) || strHasSub needle bs

/-- Does `last` character of `s` belong to `cs`?  Used for the
`[.!?。！？]$` regex test on a trimmed string. -/
def lastCharIn (s : List Char) (cs : List Char) : Bool :=
  match s.getLast? with
  | none => false
  | some c => cs.contains c

/-! ## Tokenizer (`streaming_intent_engine.tokenize`) -/

/-- Token-character class `[a-z0-9_]` (after lower-casing). -/
def isTokChar (c : Char) : Bool :=
  ('a' ≤ c && c ≤ 'z') || ('0' ≤ c && c ≤ '9') || c = '_'

/-- CJK unified ideograph class `[一-鿿]`. -/
def isCJK (c : Char) : Bool :=
  0x4e00 ≤ c.toNat && c.toNat ≤ 0x9fff

inductive CharClass where
  | alpha
  | cjk
  | other
deriving DecidableEq

def classOf (c : Char) : CharClass :=
  if isTokChar c then .alpha else if isCJK c then .cjk else .other

/-- Group a string into maximal runs of equal character class.  The regex
`[a-z0-9_]+|[一-鿿]+` in `re.findall` returns exactly the `alpha`
and `cjk` runs of this grouping, in order. -/
def classRuns : List Char → List (CharClass × List Char)
  | [] => []
  | c :: cs =>
    match classRuns cs with
    | [] => [(classOf c, [c])]
    | (k, run) :: rest =>
      if classOf c = k then (k, c :: run) :: rest
      else (classOf c, [c]) :: (k, run) :: rest

/-- Split a CJK run of length > 3 into consecutive 2-character pieces,
dropping a trailing single character (the `len(piece) >= 2` filter). -/
def cjkPieces : List Char → List (List Char)
  | a :: b :: rest => [a, b] :: cjkPieces rest
  | _ => []

def STOPWORDS : List (List Char) :=
  ["the", "a", "an", "to", "of", "in", "on", "for", "and", "or", "we",
   "you", "it", "is", "are", "be", "this", "that", "with", "as", "by",
   "把", "的", "了", "在", "和", "与", "并", "就", "先", "再", "一个",
   "这里", "这个", "那个"].map String.data

/-- `tokenize` from `streaming_intent_engine.py`: lower-case, extract
`[a-z0-9_]+` and CJK runs, split long CJK runs into 2-char pieces, and
drop stop words. -/
def tokenizeL (text : List Char) : List (List Char) :=
  let raw := lowerStr text
  let runs := classRuns raw
  let pieces := runs.foldr (fun (kr : CharClass × List Char) acc =>
    match kr.1 with
    | .alpha => kr.2 :: acc
    | .cjk => (if kr.2.length ≤ 3 then [kr.2] else cjkPieces kr.2) ++ acc
    | .other => acc) []
  pieces.filter (fun t => !t.isEmpty && !(STOPWORDS.contains t))

def tokenize (text : String) : List (List Char) := tokenizeL text.data

/-! ## Exact decimal rounding (Python `round(x, n)` and `int(round(x))`) -/

/-- Round-half-to-even to the nearest integer, Python's `round`. -/
def rndHE (q : ℚ) : ℤ :=
  if q - (⌊q⌋ : ℚ) < 1/2 then ⌊q⌋
  else if 1/2 < q - (⌊q⌋ : ℚ) then ⌊q⌋ + 1
  else if ⌊q⌋ % 2 = 0 then ⌊q⌋ else ⌊q⌋ + 1

/-- Python `round(x, n)` for exact decimal arguments. -/
def pyRound (q : ℚ) (n : ℕ) : ℚ := (rndHE (q * 10 ^ n) : ℚ) / 10 ^ n

theorem rndHE_int (z : ℤ) : rndHE z = z := by
  simp [rndHE]

theorem floor_le_rndHE (q : ℚ) : ⌊q⌋ ≤ rndHE q := by
  unfold rndHE
  split
  · omega
  · split
    · omega
    · split <;> omega

theorem rndHE_le_ceil (q : ℚ) : rndHE q ≤ ⌈q⌉ := by
  unfold rndHE
  have hfl : ⌊q⌋ ≤ ⌈q⌉ := Int.floor_le_ceil q
  by_cases h1 : q - (⌊q⌋ : ℚ) < 1/2
  · rw [if_pos h1]
    exact hfl
  · have hpos : (⌊q⌋ : ℚ) < q := by
      have hle := Int.floor_le q
      rcases eq_or_lt_of_le hle with h | h
      · exact absurd (by rw [← h]; norm_num : q - (⌊q⌋ : ℚ) < 1/2) h1
      · exact h
    have hlt : ⌊q⌋ < ⌈q⌉ := Int.lt_ceil.mpr hpos
    simp only [if_neg h1]
    split
    · omega
    · split <;> omega

/-- `rndHE` sandwich: the result is the floor or the floor plus one. -/
theorem rndHE_cases (q : ℚ) : rndHE q = ⌊q⌋ ∨ rndHE q = ⌊q⌋ + 1 := by
  unfold rndHE
  split
  · exact Or.inl rfl
  · split
    · exact Or.inr rfl
    · split
      · exact Or.inl rfl
      · exact Or.inr rfl

/-- Lower bound transfer for `pyRound` when the bound is on the decimal
grid. -/
theorem pyRound_ge (q : ℚ) (n : ℕ) (z : ℤ) (h : (z : ℚ) / 10 ^ n ≤ q) :
    (z : ℚ) / 10 ^ n ≤ pyRound q n := by
  have hpow : (0 : ℚ) < 10 ^ n := by positivity
  have hzq : (z : ℚ) ≤ q * 10 ^ n := (div_le_iff₀ hpow).mp h
  have hz : z ≤ ⌊q * 10 ^ n⌋ := Int.le_floor.mpr hzq
  have h2 : z ≤ rndHE (q * 10 ^ n) := le_trans hz (floor_le_rndHE _)
  unfold pyRound
  gcongr

/-- Upper bound transfer for `pyRound` when the bound is on the decimal
grid. -/
theorem pyRound_le (q : ℚ) (n : ℕ) (z : ℤ) (h : q ≤ (z : ℚ) / 10 ^ n) :
    pyRound q n ≤ (z : ℚ) / 10 ^ n := by
  have hpow : (0 : ℚ) < 10 ^ n := by positivity
  have hzq : q * 10 ^ n ≤ (z : ℚ) := (le_div_iff₀ hpow).mp h
  have hz : ⌈q * 10 ^ n⌉ ≤ z := Int.ceil_le.mpr hzq
  have h2 : rndHE (q * 10 ^ n) ≤ z := le_trans (rndHE_le_ceil _) hz
  unfold pyRound
  gcongr

/-! ## Online intent classifier (`OnlineIntentClassifier`) -/

/-- The `INTENT_KEYWORDS` table, flattened in Python dict insertion order
(intent declaration order, then keyword tuple order).  No keyword occurs
twice, so first-match lookup coincides with Python dict lookup. -/
def KW_PAIRS : List (String × String) :=
  [("first", "sequential"), ("then", "sequential"), ("next", "sequential"),
   ("after", "sequential"), ("before", "sequential"), ("finally", "sequential"),
   ("step", "sequential"), ("loop", "sequential"), ("if", "sequential"),
   ("else", "sequential"), ("while", "sequential"), ("start", "sequential"),
   ("end", "sequential"), ("flow", "sequential"), ("流程", "sequential"),
   ("步骤", "sequential"), ("然后", "sequential"), ("之后", "sequential"),
   ("component", "structural"), ("module", "structural"), ("service", "structural"),
   ("gateway", "structural"), ("layer", "structural"), ("architecture", "structural"),
   ("system", "structural"), ("dependency", "structural"), ("interface", "structural"),
   ("模块", "structural"), ("架构", "structural"), ("服务", "structural"),
   ("依赖", "structural"), ("接口", "structural"),
   ("category", "classification"), ("group", "classification"), ("type", "classification"),
   ("branch", "classification"), ("cluster", "classification"), ("tree", "classification"),
   ("tag", "classification"), ("分类", "classification"), ("分组", "classification"),
   ("层级", "classification"), ("分支", "classification"),
   ("entity", "relational"), ("table", "relational"), ("schema", "relational"),
   ("relationship", "relational"), ("join", "relational"), ("foreign", "relational"),
   ("primary", "relational"), ("关联", "relational"), ("关系", "relational"),
   ("实体", "relational"), ("表", "relational"), ("主键", "relational"),
   ("外键", "relational"),
   ("compare", "contrastive"), ("versus", "contrastive"), ("vs", "contrastive"),
   ("difference", "contrastive"), ("ratio", "contrastive"), ("percentage", "contrastive"),
   ("contrast", "contrastive"), ("对比", "contrastive"), ("差异", "contrastive"),
   ("占比", "contrastive"), ("趋势", "contrastive")]

/-- `keyword_index`, keyed by keyword characters (keywords are already
lower-case in the source table). -/
def kwIndex : List (List Char × String) := KW_PAIRS.map (fun p => (p.1.data, p.2))

def kwLookup (t : List Char) : Option String :=
  (kwIndex.find? (fun p => p.1 == t)).map (·.2)

/-- Insertion-ordered counter increment (`Counter.__add__` style update):
Python `Counter`s preserve first-insertion order. -/
def bumpCnt (k : String) : List (String × ℕ) → List (String × ℕ)
  | [] => [(k, 1)]
  | p :: rest => if p.1 = k then (p.1, p.2 + 1) :: rest else p :: bumpCnt k rest

/-- Keyword-hit scores: one bump per token found in the index, then one bump
per CJK keyword appearing as a substring of the raw lower-cased text. -/
def scoresOf (raw : List Char) (tokens : List (List Char)) : List (String × ℕ) :=
  let s1 := tokens.foldl (fun acc t =>
    match kwLookup t with
    | some it => bumpCnt it acc
    | none => acc) []
  kwIndex.foldl (fun acc p =>
    if p.1.any isCJK && strHasSub p.1 raw then bumpCnt p.2 acc else acc) s1

/-- `Counter.most_common(1)[0]`: maximum count, earliest-inserted wins ties
(CPython's `nlargest` is stable). -/
def topCnt : List (String × ℕ) → Option (String × ℕ)
  | [] => none
  | p :: rest =>
    match topCnt rest with
    | none => some p
    | some q => if q.2 > p.2 then some q else some p

/-- Executable binary minimum on `ℚ` (the lattice `min` does not reduce in
the kernel); used wherever the source calls `min` on floats. -/
def minQ (a b : ℚ) : ℚ := if a ≤ b then a else b

/-- Executable binary maximum on `ℚ`. -/
def maxQ (a b : ℚ) : ℚ := if b ≤ a then a else b

/-- Executable binary minimum on `ℤ`. -/
def minZ (a b : ℤ) : ℤ := if a ≤ b then a else b

/-- Executable binary maximum on `ℤ`. -/
def maxZ (a b : ℤ) : ℤ := if b ≤ a then a else b

theorem minQ_eq (a b : ℚ) : minQ a b = min a b := by
  unfold minQ
  rw [min_def]

theorem maxQ_eq (a b : ℚ) : maxQ a b = max a b := by
  unfold maxQ
  rw [max_def]
  rcases le_total a b with h | h
  · rcases eq_or_lt_of_le h with rfl | hlt
    · simp
    · rw [if_pos h, if_neg (not_le.mpr hlt)]
  · rcases eq_or_lt_of_le h with rfl | hlt
    · simp
    · rw [if_pos h, if_neg (not_le.mpr hlt)]

theorem minZ_eq (a b : ℤ) : minZ a b = min a b := by
  unfold minZ
  rw [min_def]

theorem maxZ_eq (a b : ℤ) : maxZ a b = max a b := by
  unfold maxZ
  rw [max_def]
  rcases le_total a b with h | h
  · rcases eq_or_lt_of_le h with rfl | hlt
    · simp
    · rw [if_pos h, if_neg (not_le.mpr hlt)]
  · rcases eq_or_lt_of_le h with rfl | hlt
    · simp
    · rw [if_pos h, if_neg (not_le.mpr hlt)]

/-- `raw = text.lower()` inside `classify`. -/
def rawOf (text : String) : List Char := lowerStr text.data

/-- `tokens = tokenize(raw)` inside `classify` (tokenize lower-cases again;
lower-casing is idempotent). -/
def toksOf (text : String) : List (List Char) := tokenizeL (rawOf text)

/-- `scores` counter inside `classify`. -/
def scOf (text : String) : List (String × ℕ) := scoresOf (rawOf text) (toksOf text)

/-- `scores.most_common(1)[0]` (only read when `scores` is non-empty). -/
def topHit (text : String) : String × ℕ := (topCnt (scOf text)).getD ("generic", 0)

/-- `total_hits = sum(scores.values())`. -/
def totalHits (text : String) : ℕ := ((scOf text).map (·.2)).sum

/-- `score_ratio = top_hits / max(total_hits, 1)`. -/
def hitShare (text : String) : ℚ :=
  ((topHit text).2 : ℚ) / ((max (totalHits text) 1 : ℕ) : ℚ)

/-- `density = min(total_hits / max(len(tokens), 1), 1.0)`. -/
def hitDensity (text : String) : ℚ :=
  minQ ((totalHits text : ℚ) / ((max (toksOf text).length 1 : ℕ) : ℚ)) 1

/-- `OnlineIntentClassifier.classify`: returns
`(intent_type, confidence, per-class score map)`. -/
def classify (text : String) : String × ℚ × List (String × ℚ) :=
  if toksOf text = [] then ("generic", 0.35, [("generic", 1)])
  else if scOf text = [] then
    ("generic", pyRound (minQ (0.42 + ((toksOf text).length : ℚ) / 100) 0.55) 4,
      [("generic", pyRound (minQ (0.42 + ((toksOf text).length : ℚ) / 100) 0.55) 4)])
  else
    ((topHit text).1,
     pyRound (maxQ 0.35 (minQ (0.45 + 0.4 * hitShare text + 0.15 * hitDensity text) 0.96)) 4,
     (scOf text).map (fun p =>
       (p.1, pyRound ((p.2 : ℚ) / ((max (totalHits text) 1 : ℕ) : ℚ)) 4)))

def classifyIntent (text : String) : String := (classify text).1

def classifyConf (text : String) : ℚ := (classify text).2.1

/-- Rounding to four decimals preserves the `[0.35, 0.96]` clamp window,
because both endpoints lie on the 1/10⁴ grid. -/
theorem pyRound4_range (v : ℚ) (h1 : 0.35 ≤ v) (h2 : v ≤ 0.96) :
    0.35 ≤ pyRound v 4 ∧ pyRound v 4 ≤ 0.96 := by
  have e1 : (0.35 : ℚ) = ((3500 : ℤ) : ℚ) / 10 ^ 4 := by norm_num
  have e2 : (0.96 : ℚ) = ((9600 : ℤ) : ℚ) / 10 ^ 4 := by norm_num
  constructor
  · rw [e1]
    exact pyRound_ge v 4 3500 (by rw [← e1]; exact h1)
  · rw [e2]
    exact pyRound_le v 4 9600 (by rw [← e2]; exact h2)

/-- C3 claim, as stated, is false: the code rounds the clamped confidence
to four decimal places.  On `"first then component"` the hits are
sequential×2, structural×1, so ratio = 2/3, density = 1, and the clamp
value 13/15 = 0.8666… is returned as 0.8667. -/
theorem C3_claim_counterexample :
    classifyConf "first then component" = 8667 / 10000 ∧
    (8667 / 10000 : ℚ) ≠
      maxQ 0.35 (minQ (0.45 + 0.4 * (2 / 3) + 0.15 * 1) 0.96) := by
  have htoks : ¬ toksOf "first then component" = [] := by decide
  have hsc : ¬ scOf "first then component" = [] := by decide
  have htop : topHit "first then component" = ("sequential", 2) := by decide
  have htot : totalHits "first then component" = 3 := by decide
  have hlen : (toksOf "first then component").length = 3 := by decide
  constructor
  · rw [classifyConf, classify, if_neg htoks, if_neg hsc]
    have hshare : hitShare "first then component" = 2 / 3 := by
      rw [hitShare, htop, htot]
      norm_num
    have hdens : hitDensity "first then component" = 1 := by
      rw [hitDensity, htot, hlen]
      norm_num [minQ]
    rw [hshare, hdens]
    norm_num [minQ, maxQ, pyRound, rndHE]
  · norm_num [minQ, maxQ]

/-- C3 (amended): for every segment text the classifier returns, when at
least one class scores a keyword hit, confidence
round₄(clamp(0.45 + 0.40·ratio + 0.15·density, 0.35, 0.96)) with
ratio = top_hits/total_hits and density = min(total_hits/max(tokens,1), 1);
when no class scores but tokenization is non-empty, intent `generic` with
confidence round₄(min(0.42 + tokens/100, 0.55)); when tokenization is
empty, intent `generic` with confidence 0.35; in every case the returned
confidence lies in [0.35, 0.96]. -/
theorem C3_confidence_amended (text : String) :
    (toksOf text = [] →
      classifyIntent text = "generic" ∧ classifyConf text = 0.35)
    ∧ (toksOf text ≠ [] → scOf text = [] →
      classifyIntent text = "generic" ∧
        classifyConf text =
          pyRound (minQ (0.42 + ((toksOf text).length : ℚ) / 100) 0.55) 4)
    ∧ (toksOf text ≠ [] → scOf text ≠ [] →
      classifyIntent text = (topHit text).1 ∧
        classifyConf text =
          pyRound (maxQ 0.35
            (minQ (0.45 + 0.4 * hitShare text + 0.15 * hitDensity text) 0.96)) 4)
    ∧ (0.35 ≤ classifyConf text ∧ classifyConf text ≤ 0.96) := by
  refine ⟨?_, ?_, ?_, ?_⟩
  · intro h
    rw [classifyIntent, classifyConf, classify, if_pos h]
    exact ⟨rfl, rfl⟩
  · intro h1 h2
    rw [classifyIntent, classifyConf, classify, if_neg h1, if_pos h2]
    exact ⟨rfl, rfl⟩
  · intro h1 h2
    rw [classifyIntent, classifyConf, classify, if_neg h1, if_neg h2]
    exact ⟨rfl, rfl⟩
  · rw [classifyConf, classify]
    by_cases h1 : toksOf text = []
    · rw [if_pos h1]
      norm_num
    · rw [if_neg h1]
      by_cases h2 : scOf text = []
      · rw [if_pos h2]
        have hnn : (0 : ℚ) ≤ ((toksOf text).length : ℚ) / 100 := by positivity
        have hlo : (0.35 : ℚ) ≤ minQ (0.42 + ((toksOf text).length : ℚ) / 100) 0.55 := by
          rw [minQ_eq]
          apply le_min
          · linarith
          · norm_num
        have hhi : minQ (0.42 + ((toksOf text).length : ℚ) / 100) 0.55 ≤ 0.96 := by
          rw [minQ_eq]
          refine le_trans (min_le_right _ _) (by norm_num)
        exact pyRound4_range _ hlo hhi
      · rw [if_neg h2]
        have hlo : (0.35 : ℚ) ≤ maxQ 0.35
            (minQ (0.45 + 0.4 * hitShare text + 0.15 * hitDensity text) 0.96) := by
          rw [maxQ_eq]
          exact le_max_left _ _
        have hhi : maxQ 0.35
            (minQ (0.45 + 0.4 * hitShare text + 0.15 * hitDensity text) 0.96) ≤ 0.96 := by
          rw [maxQ_eq, minQ_eq]
          apply max_le
          · norm_num
          · exact min_le_right _ _
        exact pyRound4_range _ hlo hhi

/-- Non-vacuity of `C3_confidence_amended` at a keyword-hitting input. -/
theorem C3_confidence_amended_witness :
    (toksOf "first then component" ≠ [] ∧ scOf "first then component" ≠ []) ∧
    0.35 ≤ classifyConf "first then component" ∧
      classifyConf "first then component" ≤ 0.96 :=
  ⟨⟨by decide, by decide⟩, (C3_confidence_amended "first then component").2.2.2⟩

/-! ## Percentile (`_pctl` in `incremental_renderer.py` /
`unified_pretrain_eval.py`) -/

/-- Python `sorted` on a list of floats (stable; ties are equal values). -/
def sortQ (l : List ℚ) : List ℚ := List.insertionSort (· ≤ ·) l

/-- `_pctl(values, p)`: 0 on empty input, extremes for `p ≤ 0` / `p ≥ 100`,
otherwise `arr[int(round((len(arr) - 1) * p / 100.0))]` on the sorted
array. -/
def pctl (values : List ℚ) (p : ℚ) : ℚ :=
  if values = [] then 0
  else if p ≤ 0 then (sortQ values).headD 0
  else if 100 ≤ p then (sortQ values).getLastD 0
  else (sortQ values).getD (rndHE (((values.length : ℚ) - 1) * p / 100)).toNat 0

/-- A 12-element displacement list on which `round` and `⌈·⌉` disagree:
`0.95 · 11 = 10.45`. -/
def exDisps : List ℚ := [0, 10, 20, 30, 40, 50, 60, 70, 80, 90, 100, 110]

/-- C8 claim, as stated, is false: `_pctl` indexes with
`int(round((n-1)·p/100))`, not `⌈0.95·(n-1)⌉`.  With 12 sorted
displacements the code reads index `round(10.45) = 10` (value 100) while
the claimed index is `⌈10.45⌉ = 11` (value 110). -/
theorem C8_claim_counterexample :
    pctl exDisps 95 = 100 ∧
    (sortQ exDisps).getD (Int.toNat ⌈(0.95 * ((12 : ℚ) - 1))⌉) 0 = 110 ∧
    (100 : ℚ) ≠ 110 := by
  have hsort : sortQ exDisps = exDisps := by decide
  refine ⟨?_, ?_, by norm_num⟩
  · have h0 : ¬ exDisps = [] := by decide
    have h1 : ¬ (95 : ℚ) ≤ 0 := by norm_num
    have h2 : ¬ (100 : ℚ) ≤ 95 := by norm_num
    rw [pctl, if_neg h0, if_neg h1, if_neg h2, hsort]
    have hidx : (rndHE (((exDisps.length : ℚ) - 1) * 95 / 100)).toNat = 10 := by
      have hlen : exDisps.length = 12 := by decide
      rw [hlen]
      norm_num [rndHE]
      decide
    rw [hidx]
    decide
  · have hc : ⌈(0.95 * ((12 : ℚ) - 1))⌉ = 11 := by
      rw [Int.ceil_eq_iff]; norm_num
    rw [hc, hsort]
    decide

/-- C8 (amended): on a non-empty displacement list of length n, `_pctl`
at p = 95 returns the sorted list's entry at index
`round(0.95·(n−1))` (round-half-to-even), an index always within bounds;
the sorted list is a sorted permutation of the input; and the result is 0
when there are no displacements. -/
theorem C8_p95_amended (values : List ℚ) :
    (values ≠ [] →
      pctl values 95 =
        (sortQ values).getD
          (rndHE (((values.length : ℚ) - 1) * 95 / 100)).toNat 0)
    ∧ (values ≠ [] →
      (rndHE (((values.length : ℚ) - 1) * 95 / 100)).toNat < values.length)
    ∧ (sortQ values).Perm values
    ∧ (sortQ values).Sorted (· ≤ ·)
    ∧ pctl [] 95 = 0 := by
  refine ⟨?_, ?_, List.perm_insertionSort _ _, List.sorted_insertionSort _ _, rfl⟩
  · intro h
    rw [pctl, if_neg h, if_neg (by norm_num : ¬ (95 : ℚ) ≤ 0),
      if_neg (by norm_num : ¬ (100 : ℚ) ≤ 95)]
  · intro h
    have hn : 1 ≤ values.length := List.length_pos.mpr h
    set n := values.length with hdef
    have hx0 : (0 : ℚ) ≤ ((n : ℚ) - 1) * 95 / 100 := by
      have h1n : (1 : ℚ) ≤ (n : ℚ) := by exact_mod_cast hn
      nlinarith
    have hxle : ((n : ℚ) - 1) * 95 / 100 ≤ (((n : ℤ) - 1 : ℤ) : ℚ) := by
      push_cast
      have : (1 : ℚ) ≤ (n : ℚ) := by exact_mod_cast hn
      nlinarith
    have h1 : 0 ≤ rndHE (((n : ℚ) - 1) * 95 / 100) := by
      have := floor_le_rndHE (((n : ℚ) - 1) * 95 / 100)
      have h0 : (0 : ℤ) ≤ ⌊((n : ℚ) - 1) * 95 / 100⌋ := Int.le_floor.mpr (by exact_mod_cast hx0)
      omega
    have h2 : rndHE (((n : ℚ) - 1) * 95 / 100) ≤ (n : ℤ) - 1 := by
      have hc := rndHE_le_ceil (((n : ℚ) - 1) * 95 / 100)
      have : ⌈((n : ℚ) - 1) * 95 / 100⌉ ≤ (n : ℤ) - 1 := by
        calc ⌈((n : ℚ) - 1) * 95 / 100⌉ ≤ ⌈(((n : ℤ) - 1 : ℤ) : ℚ)⌉ := Int.ceil_mono hxle
        _ = (n : ℤ) - 1 := Int.ceil_intCast _
      omega
    omega

/-- Non-vacuity of `C8_p95_amended` on the 12-element list. -/
theorem C8_p95_amended_witness :
    pctl exDisps 95 =
      (sortQ exDisps).getD
        (rndHE (((exDisps.length : ℚ) - 1) * 95 / 100)).toNat 0 ∧
    (rndHE (((exDisps.length : ℚ) - 1) * 95 / 100)).toNat < exDisps.length :=
  ⟨(C8_p95_amended exDisps).1 (by decide),
   (C8_p95_amended exDisps).2.1 (by decide)⟩

/-! ## Realtime evaluator (`evaluate_realtime_pipeline.evaluate_payload`) -/

/-- The metric values `evaluate_payload` extracts from a pipeline payload:
`summary.latency_e2e_ms.p95`, `renderer.flicker_index.mean`,
`renderer.mental_map_score.mean`, and the optional
`summary.intent_labeled_accuracy`. -/
structure EvalPayload where
  e2e_p95 : ℚ
  flicker_mean : ℚ
  mental_mean : ℚ
  intent_acc : Option ℚ

/-- The `checks` dict of `evaluate_payload` (exactly four entries). -/
structure EvalChecks where
  latency_p95_ok : Bool
  flicker_mean_ok : Bool
  mental_map_ok : Bool
  intent_accuracy_ok : Bool

/-- `evaluate_payload`: the four threshold checks and
`realtime_eval_pass = all(checks.values())`.  Defaults are the Python
keyword defaults. -/
def evaluatePayload (p : EvalPayload) (latThr : ℚ := 2000)
    (flickThr : ℚ := 6) (mentalMin : ℚ := 0.85) (accThr : ℚ := 0.8) :
    EvalChecks × Bool :=
  let checks : EvalChecks :=
    { latency_p95_ok := decide (p.e2e_p95 ≤ latThr)
      flicker_mean_ok := decide (p.flicker_mean ≤ flickThr)
      mental_map_ok := decide (mentalMin ≤ p.mental_mean)
      intent_accuracy_ok :=
        match p.intent_acc with
        | none => true
        | some a => decide (accThr ≤ a) }
  (checks,
   checks.latency_p95_ok && checks.flicker_mean_ok &&
     checks.mental_map_ok && checks.intent_accuracy_ok)

/-- C7: `realtime_eval_pass` is the conjunction of exactly the four checks
`latency_p95_ok`, `flicker_mean_ok`, `mental_map_ok`,
`intent_accuracy_ok`, and `intent_accuracy_ok` is true whenever the
labeled accuracy is absent, so a payload without labels never fails the
accuracy check. -/
theorem C7_eval_pass (p : EvalPayload) (latThr flickThr mentalMin accThr : ℚ) :
    ((evaluatePayload p latThr flickThr mentalMin accThr).2 =
      ((evaluatePayload p latThr flickThr mentalMin accThr).1.latency_p95_ok &&
       (evaluatePayload p latThr flickThr mentalMin accThr).1.flicker_mean_ok &&
       (evaluatePayload p latThr flickThr mentalMin accThr).1.mental_map_ok &&
       (evaluatePayload p latThr flickThr mentalMin accThr).1.intent_accuracy_ok))
    ∧ ((evaluatePayload p latThr flickThr mentalMin accThr).2 = true ↔
        (p.e2e_p95 ≤ latThr ∧ p.flicker_mean ≤ flickThr ∧
         mentalMin ≤ p.mental_mean ∧
         (∀ a, p.intent_acc = some a → accThr ≤ a)))
    ∧ (p.intent_acc = none →
        (evaluatePayload p latThr flickThr mentalMin accThr).1.intent_accuracy_ok = true) := by
  refine ⟨rfl, ?_, ?_⟩
  · cases hacc : p.intent_acc with
    | none =>
      simp [evaluatePayload, hacc]
      tauto
    | some a =>
      simp [evaluatePayload, hacc]
      tauto
  · intro h
    simp [evaluatePayload, h]

/-- Non-vacuity of `C7_eval_pass`: a label-free payload passes the
accuracy check. -/
theorem C7_eval_pass_witness :
    (evaluatePayload ⟨0, 0, 1, none⟩ 2000 6 0.85 0.8).1.intent_accuracy_ok = true :=
  (C7_eval_pass ⟨0, 0, 1, none⟩ 2000 6 0.85 0.8).2.2 rfl

/-! ## Dataset readiness (`tools/unified_pretrain_eval.py`) -/

/-- One parsed JSON record of a dataset directory, abstracted to the typed
fields `evaluate_dataset` reads: `has_id` is `bool(id or record_id)`;
`code` / `diagram_type` are present iff the JSON value is a string
(`none` covers both absence and a non-string value); `dialogue_turns` is
the length of `cscw_dialogue` when it is a list; `license_name` /
`license_alt` are the `license_name` / `license` fields. -/
structure DataRecord where
  has_id : Bool
  code : Option String
  diagram_type : Option String
  dialogue_turns : Option ℕ
  compilation_status : String
  license_name : Option String
  license_alt : Option String

def hasCode (r : DataRecord) : Bool :=
  match r.code with
  | some s => !s.data.isEmpty
  | none => false

def hasDtype (r : DataRecord) : Bool :=
  match r.diagram_type with
  | some s => !s.data.isEmpty
  | none => false

def hasDialogue (r : DataRecord) : Bool :=
  match r.dialogue_turns with
  | some n => decide (0 < n)
  | none => false

def turnsOf (r : DataRecord) : ℕ := r.dialogue_turns.getD 0

def schemaPass (r : DataRecord) : Bool :=
  r.has_id && hasCode r && hasDtype r && hasDialogue r

def turnRangeOk (r : DataRecord) : Bool :=
  hasDialogue r && decide (4 ≤ turnsOf r) && decide (turnsOf r ≤ 120)

def compOk (r : DataRecord) : Bool :=
  lowerStr (trimS r.compilation_status.data) = "success".data

/-- Python `a or b or ""` over the two license fields (empty string and
`None` are falsy). -/
def orStr (a b : Option String) : String :=
  match a with
  | some s => if s = "" then b.getD "" else s
  | none => b.getD ""

def INVALID_LICENSE_VALUES : List (List Char) :=
  ["none", "unknown", "error", "rate_limited", ""].map String.data

def licenseOk (r : DataRecord) : Bool :=
  !(INVALID_LICENSE_VALUES.contains
      (lowerStr (trimS (orStr r.license_name r.license_alt).data)))

/-- The diagram type counted into the diversity dict (only when
`has_diagram_type`). -/
def dtypeOf (r : DataRecord) : Option String :=
  match r.diagram_type with
  | some s => if s.data.isEmpty then none else some s
  | none => none

/-- `_safe_ratio`. -/
def safeFrac (a b : ℕ) : ℚ := if 0 < b then (a : ℚ) / (b : ℚ) else 0

/-- Total file count: parsed records plus files that failed to parse
(parse failures still count in `total = len(files)`). -/
def totalFiles (records : List DataRecord) (parseFail : ℕ) : ℕ :=
  records.length + parseFail

def schemaFrac (records : List DataRecord) (parseFail : ℕ) : ℚ :=
  safeFrac (records.countP schemaPass) (totalFiles records parseFail)

def compileFrac (records : List DataRecord) (parseFail : ℕ) : ℚ :=
  safeFrac (records.countP compOk) (totalFiles records parseFail)

def licenseFrac (records : List DataRecord) (parseFail : ℕ) : ℚ :=
  safeFrac (records.countP licenseOk) (totalFiles records parseFail)

/-- `turn_range_ratio = turn_range_ok / dialogue_ok`: counted among
records with any dialogue. -/
def turnRangeFrac (records : List DataRecord) : ℚ :=
  safeFrac (records.countP turnRangeOk) (records.countP hasDialogue)

def uniqueDtypes (records : List DataRecord) : ℕ :=
  ((records.filterMap dtypeOf).dedup).length

/-- `diversity_ratio = min(unique_types / 10.0, 1.0)`. -/
def diversityFrac (records : List DataRecord) : ℚ :=
  minQ ((uniqueDtypes records : ℚ) / 10) 1

/-- `dataset_readiness_score = round(weighted_sum * 100.0, 2)` from
`evaluate_dataset`. -/
def datasetScore (records : List DataRecord) (parseFail : ℕ) : ℚ :=
  pyRound
    ((0.30 * schemaFrac records parseFail
      + 0.20 * compileFrac records parseFail
      + 0.15 * licenseFrac records parseFail
      + 0.20 * turnRangeFrac records
      + 0.15 * diversityFrac records) * 100) 2

/-- `merge_scores`: fused readiness score and the `ready` flag.  The
realtime score is `some r` exactly when a realtime report was found. -/
def mergeScores (dataset : ℚ) (realtime : Option ℚ) : ℚ × Bool :=
  match realtime with
  | some r =>
    (pyRound (0.7 * dataset + 0.3 * r) 2,
     decide ((80 : ℚ) ≤ pyRound (0.7 * dataset + 0.3 * r) 2))
  | none => (pyRound dataset 2, decide ((80 : ℚ) ≤ pyRound dataset 2))

theorem safeFrac_nonneg (a b : ℕ) : 0 ≤ safeFrac a b := by
  unfold safeFrac
  split
  · positivity
  · norm_num

theorem safeFrac_le_one (a b : ℕ) (h : a ≤ b) : safeFrac a b ≤ 1 := by
  unfold safeFrac
  split
  · rename_i hb
    rw [div_le_one (by exact_mod_cast hb)]
    exact_mod_cast h
  · norm_num

theorem schemaFrac_mem (records : List DataRecord) (parseFail : ℕ) :
    0 ≤ schemaFrac records parseFail ∧ schemaFrac records parseFail ≤ 1 :=
  ⟨safeFrac_nonneg _ _,
   safeFrac_le_one _ _ (le_trans (List.countP_le_length _) (Nat.le_add_right _ _))⟩

theorem compileFrac_mem (records : List DataRecord) (parseFail : ℕ) :
    0 ≤ compileFrac records parseFail ∧ compileFrac records parseFail ≤ 1 :=
  ⟨safeFrac_nonneg _ _,
   safeFrac_le_one _ _ (le_trans (List.countP_le_length _) (Nat.le_add_right _ _))⟩

theorem licenseFrac_mem (records : List DataRecord) (parseFail : ℕ) :
    0 ≤ licenseFrac records parseFail ∧ licenseFrac records parseFail ≤ 1 :=
  ⟨safeFrac_nonneg _ _,
   safeFrac_le_one _ _ (le_trans (List.countP_le_length _) (Nat.le_add_right _ _))⟩

theorem turnRangeFrac_mem (records : List DataRecord) :
    0 ≤ turnRangeFrac records ∧ turnRangeFrac records ≤ 1 := by
  refine ⟨safeFrac_nonneg _ _, safeFrac_le_one _ _ ?_⟩
  apply List.countP_mono_left
  intro r _ h
  unfold turnRangeOk turnsOf at h
  unfold hasDialogue at h ⊢
  cases hr : r.dialogue_turns with
  | none => rw [hr] at h; simp at h
  | some n =>
    rw [hr] at h
    simp at h ⊢
    omega

theorem diversityFrac_mem (records : List DataRecord) :
    0 ≤ diversityFrac records ∧ diversityFrac records ≤ 1 := by
  unfold diversityFrac minQ
  constructor
  · split
    · positivity
    · norm_num
  · split
    · rename_i h
      exact h
    · norm_num

/-- A record passing every per-record check. -/
def exRecord : DataRecord :=
  { has_id := true
    code := some "graph TD"
    diagram_type := some "flowchart"
    dialogue_turns := some 6
    compilation_status := "success"
    license_name := some "mit"
    license_alt := none }

/-- C10 claim, as stated, is false: the dataset readiness score is the
weighted ratio sum scaled by 100 (and rounded to 2 decimals), so it does
not equal the plain weighted sum.  One fully valid record gives ratios
(1, 1, 1, 1, 1/10), weighted sum 0.865, recorded score 86.5. -/
theorem C10_claim_counterexample :
    datasetScore [exRecord] 0 = 86.5 ∧
    0.30 * schemaFrac [exRecord] 0 + 0.20 * compileFrac [exRecord] 0
      + 0.15 * licenseFrac [exRecord] 0 + 0.20 * turnRangeFrac [exRecord]
      + 0.15 * diversityFrac [exRecord] = 0.865 ∧
    (86.5 : ℚ) ≠ 0.865 := by
  have h1 : ([exRecord].countP schemaPass) = 1 := by decide
  have h2 : ([exRecord].countP compOk) = 1 := by decide
  have h3 : ([exRecord].countP licenseOk) = 1 := by decide
  have h4 : ([exRecord].countP turnRangeOk) = 1 := by decide
  have h5 : ([exRecord].countP hasDialogue) = 1 := by decide
  have h6 : uniqueDtypes [exRecord] = 1 := by decide
  have hs : schemaFrac [exRecord] 0 = 1 := by
    rw [schemaFrac, h1]
    norm_num [safeFrac, totalFiles]
  have hc : compileFrac [exRecord] 0 = 1 := by
    rw [compileFrac, h2]
    norm_num [safeFrac, totalFiles]
  have hl : licenseFrac [exRecord] 0 = 1 := by
    rw [licenseFrac, h3]
    norm_num [safeFrac, totalFiles]
  have ht : turnRangeFrac [exRecord] = 1 := by
    rw [turnRangeFrac, h4, h5]
    norm_num [safeFrac]
  have hd : diversityFrac [exRecord] = 1 / 10 := by
    rw [diversityFrac, h6]
    norm_num [minQ]
  refine ⟨?_, ?_, by norm_num⟩
  · rw [datasetScore, hs, hc, hl, ht, hd]
    norm_num [pyRound, rndHE]
  · rw [hs, hc, hl, ht, hd]
    norm_num

/-- C10 (amended): the dataset readiness score equals
round₂(100 · (0.30·schema_ratio + 0.20·compile_success_ratio +
0.15·license_valid_ratio + 0.20·turn_range_ratio + 0.15·diversity_ratio))
and lies in [0, 100]; with a realtime score present the fused readiness is
round₂(0.7·dataset + 0.3·realtime); and `ready` holds iff the fused score
is ≥ 80. -/
theorem C10_readiness_amended (records : List DataRecord) (parseFail : ℕ)
    (d r : ℚ) (rt : Option ℚ) :
    (0 ≤ datasetScore records parseFail ∧ datasetScore records parseFail ≤ 100)
    ∧ datasetScore records parseFail =
        pyRound ((0.30 * schemaFrac records parseFail
          + 0.20 * compileFrac records parseFail
          + 0.15 * licenseFrac records parseFail
          + 0.20 * turnRangeFrac records
          + 0.15 * diversityFrac records) * 100) 2
    ∧ (mergeScores d (some r)).1 = pyRound (0.7 * d + 0.3 * r) 2
    ∧ ((mergeScores d rt).2 = true ↔ 80 ≤ (mergeScores d rt).1) := by
  refine ⟨?_, rfl, rfl, ?_⟩
  · obtain ⟨s0, s1⟩ := schemaFrac_mem records parseFail
    obtain ⟨c0, c1⟩ := compileFrac_mem records parseFail
    obtain ⟨l0, l1⟩ := licenseFrac_mem records parseFail
    obtain ⟨t0, t1⟩ := turnRangeFrac_mem records
    obtain ⟨v0, v1⟩ := diversityFrac_mem records
    unfold datasetScore
    constructor
    · have h0 : ((0 : ℤ) : ℚ) / 10 ^ 2 ≤
          (0.30 * schemaFrac records parseFail
            + 0.20 * compileFrac records parseFail
            + 0.15 * licenseFrac records parseFail
            + 0.20 * turnRangeFrac records
            + 0.15 * diversityFrac records) * 100 := by
        push_cast
        nlinarith
      have := pyRound_ge _ 2 0 h0
      push_cast at this
      linarith
    · have h0 : (0.30 * schemaFrac records parseFail
            + 0.20 * compileFrac records parseFail
            + 0.15 * licenseFrac records parseFail
            + 0.20 * turnRangeFrac records
            + 0.15 * diversityFrac records) * 100 ≤
          ((10000 : ℤ) : ℚ) / 10 ^ 2 := by
        push_cast
        nlinarith
      have := pyRound_le _ 2 10000 h0
      push_cast at this
      linarith
  · cases rt with
    | none =>
      simp [mergeScores]
    | some x =>
      simp [mergeScores]

/-! ## Streaming intent engine (`streaming_intent_engine.py`) -/

structure TranscriptChunk where
  timestamp_ms : ℤ
  text : String
  speaker : String := "user"
  is_final : Bool := true
deriving DecidableEq

structure EngineConfig where
  min_wait_k : ℤ := 1
  base_wait_k : ℤ := 2
  max_wait_k : ℤ := 4
  min_boundary_tokens : ℕ := 6
  silence_boundary_ms : ℤ := 1200
  max_window_ms : ℤ := 3800
  token_budget_per_wait_k : ℤ := 18
deriving DecidableEq

def defaultConfig : EngineConfig := {}

/-- Graph operation, the closed two-case variant of the op dicts. -/
inductive Op where
  | add_node (id label intent : String)
  | add_edge (src dst : String)
deriving DecidableEq

structure StreamingUpdate where
  update_id : ℕ
  start_ms : ℤ
  end_ms : ℤ
  duration_ms : ℤ
  boundary_reason : String
  intent_type : String
  intent_confidence : ℚ
  wait_k_used : ℤ
  token_count : ℕ
  chunk_count : ℕ
  keywords : List String
  operations : List Op
  transcript_text : String
  processing_latency_ms : ℤ
deriving DecidableEq

/-- `StreamingIntentEngine` mutable state.  The three metric lists mirror
`self.metrics`; the two counters mirror `intent_counter` /
`boundary_counter`. -/
structure EngineState where
  config : EngineConfig
  pending : List TranscriptChunk
  pending_arrive_wall_ms : List ℤ
  pending_tokens : ℕ
  current_wait_k : ℤ
  update_id : ℕ
  last_chunk_ts : Option ℤ
  last_keywords : List String
  latency_ms : List ℤ
  update_duration_ms : List ℤ
  tokens_per_update : List ℕ
  intent_counter : List (String × ℕ)
  boundary_counter : List (String × ℕ)
deriving DecidableEq

def initEngine (cfg : EngineConfig) : EngineState :=
  { config := cfg
    pending := []
    pending_arrive_wall_ms := []
    pending_tokens := 0
    current_wait_k := cfg.base_wait_k
    update_id := 0
    last_chunk_ts := none
    last_keywords := []
    latency_ms := []
    update_duration_ms := []
    tokens_per_update := []
    intent_counter := []
    boundary_counter := [] }

def BOUNDARY_MARKERS : List (List Char) :=
  ["然后", "接着", "另外", "最后", "next", "then", "finally", "meanwhile"].map
    String.data

def SENTENCE_END_CHARS : List Char := ['.', '!', '?', '。', '！', '？']

/-- `_should_dispatch_reason(latest, gap_ms)`, evaluated on the state with
`latest` already appended to `pending`.  The source's locals are inlined:
`tokens = pending_tokens`, `window_ms = max(0, latest.ts − pending[0].ts)`,
`ends_sentence` is the `[.!?。！？]$` test on the trimmed text,
`has_marker` the `BOUNDARY_MARKERS` prefix test on its lower-casing. -/
def shouldDispatchReason (st : EngineState) (latest : TranscriptChunk)
    (gap_ms : ℤ) : Option String :=
  if st.pending = [] then none
  else if st.config.silence_boundary_ms ≤ gap_ms ∧
      st.config.min_boundary_tokens ≤ st.pending_tokens then some "silence_gap"
  else if st.config.max_window_ms ≤
      maxZ 0 (latest.timestamp_ms - (st.pending.headD latest).timestamp_ms) then
    some "max_window_ms"
  else if lastCharIn (trimS latest.text.data) SENTENCE_END_CHARS ∧
      st.config.min_boundary_tokens ≤ st.pending_tokens then some "sentence_end"
  else if BOUNDARY_MARKERS.any
        (fun m => strHasPre m (lowerStr (trimS latest.text.data))) ∧
      st.config.min_boundary_tokens ≤ st.pending_tokens then
    some "discourse_marker"
  else if st.current_wait_k * st.config.token_budget_per_wait_k ≤
      (st.pending_tokens : ℤ) then some "token_budget"
  else none

/-! ### Keyword extraction (`_extract_keywords`) -/

/-- Code-point lexicographic order on character lists (Python string `<`). -/
def lexLt : List Char → List Char → Bool
  | [], [] => false
  | [], _ :: _ => true
  | _ :: _, [] => false
  | a :: as, b :: bs =>
    if a.toNat < b.toNat then true
    else if b.toNat < a.toNat then false
    else lexLt as bs

/-- `key=lambda x: (-len(x), x)` as a strict order (keys are distinct). -/
def kwKeyLt (a b : List Char) : Bool :=
  decide (b.length < a.length) || (decide (a.length = b.length) && lexLt a b)

def insB {α : Type} (lt : α → α → Bool) (a : α) : List α → List α
  | [] => [a]
  | b :: bs => if lt a b then a :: b :: bs else b :: insB lt a bs

/-- Insertion sort by a strict order; agrees with Python `sorted` whenever
no two elements are order-equivalent. -/
def sortB {α : Type} (lt : α → α → Bool) (l : List α) : List α :=
  l.foldr (insB lt) []

def sortedKwKeys : List (List Char) := sortB kwKeyLt (kwIndex.map (·.1))

def isPhraseDelim (c : Char) : Bool :=
  c ∈ ['，', '。', '！', '？', '；', ';', ',', '.', '!', '?']

/-- `re.split` on punctuation; splitting at every delimiter character
instead of at maximal runs only changes the number of empty segments,
which the caller drops. -/
def splitDelims : List Char → List (List Char)
  | [] => [[]]
  | c :: cs =>
    let rest := splitDelims cs
    if isPhraseDelim c then [] :: rest
    else
      match rest with
      | [] => [[c]]
      | r :: rs => (c :: r) :: rs

def phraseCandidates (text : List Char) : List (List Char) :=
  (splitDelims text).foldr (fun p acc =>
    let p1 := trimS p
    if p1.isEmpty then acc
    else
      let p2 := if 20 < p1.length then p1.take 20 else p1
      if 2 ≤ p2.length then p2 :: acc else acc) []

def isAlphaTok (t : List Char) : Bool :=
  decide (3 ≤ t.length) && t.all isTokChar

def bumpKey {α : Type} [DecidableEq α] (k : α) :
    List (α × ℕ) → List (α × ℕ)
  | [] => [(k, 1)]
  | p :: rest => if p.1 = k then (p.1, p.2 + 1) :: rest else p :: bumpKey k rest

def alphaFreq (tokens : List (List Char)) : List (List Char × ℕ) :=
  tokens.foldl (fun acc t => if isAlphaTok t then bumpKey t acc else acc) []

/-- `key=lambda x: (-x[1], -len(x[0]), x[0])` as a strict order. -/
def alphaLt (a b : List Char × ℕ) : Bool :=
  decide (b.2 < a.2) ||
    (decide (a.2 = b.2) &&
      (decide (b.1.length < a.1.length) ||
        (decide (a.1.length = b.1.length) && lexLt a.1 b.1)))

def alphaCandidates (tokens : List (List Char)) : List (List Char) :=
  (sortB alphaLt (alphaFreq tokens)).map (·.1)

/-- Merge candidate lists: skip empties, deduplicate by lower-cased key,
stop at 8 items. -/
def mergeCands (cands : List (List Char)) : List (List Char) :=
  (cands.foldl (fun (acc : List (List Char) × List (List Char)) c =>
    if 8 ≤ acc.1.length then acc
    else if c.isEmpty then acc
    else
      let key := lowerStr c
      if acc.2.contains key then acc
      else (acc.1 ++ [c], acc.2 ++ [key])) ([], [])).1

/-- The merged candidate list before the `core_step` fallback. -/
def extractMerged (text : List Char) (tokens : List (List Char)) :
    List (List Char) :=
  let text_lower := lowerStr text
  let domain_hits := sortedKwKeys.filter (fun kw => strHasSub kw text_lower)
  mergeCands (domain_hits ++ phraseCandidates text ++ alphaCandidates tokens)

/-- `_extract_keywords(text, tokens)` (with the default `max_items = 8`). -/
def extractKeywords (text : List Char) (tokens : List (List Char)) :
    List String :=
  let merged := extractMerged text tokens
  if merged.isEmpty then ["core_step"] else merged.map String.mk

/-! ### Novelty, wait-k, operation synthesis, dispatch -/

/-- `_semantic_novelty`: returns the novelty value and the new
`last_keywords`. -/
def semanticNovelty (last_keywords keywords : List String) :
    ℚ × List String :=
  if last_keywords.isEmpty then (1, keywords)
  else
    let prev := last_keywords.dedup
    let cur := keywords.dedup
    let unionLen := (prev ++ cur).dedup.length
    if unionLen = 0 then (0, keywords)
    else
      (1 - ((prev.filter (fun x => cur.contains x)).length : ℚ) / (unionLen : ℚ),
       keywords)

/-- `_update_wait_k`: restart from base, adjust by at most one step each
way, clamp to `[min_wait_k, max_wait_k]`. -/
def updateWaitK (cfg : EngineConfig) (confidence novelty : ℚ) : ℤ :=
  let w1 := if 0.78 ≤ confidence ∧ novelty ≤ 0.35 then cfg.base_wait_k + 1
    else cfg.base_wait_k
  let w2 := if confidence < 0.52 ∨ 0.8 ≤ novelty then w1 - 1 else w1
  maxZ cfg.min_wait_k (minZ w2 cfg.max_wait_k)

def nodeId (uid : ℕ) (i : ℕ) : String :=
  "u" ++ toString uid ++ "_n" ++ toString i

def enumFrom {α : Type} : ℕ → List α → List (ℕ × α)
  | _, [] => []
  | i, a :: as => (i, a) :: enumFrom (i + 1) as

def chainEdges : List String → List Op
  | a :: b :: rest => .add_edge a b :: chainEdges (b :: rest)
  | _ => []

def hubEdges (hub : String) (rest : List String) : List Op :=
  rest.map (fun n => .add_edge hub n)

/-- `_build_incremental_ops`: nodes for the first `min(6, |keywords|)`
keywords, then intent-dependent edges. -/
def buildOps (uid : ℕ) (keywords : List String) (intent_type : String) :
    List Op :=
  let pairs := enumFrom 1 (keywords.take 6)
  let node_ids := pairs.map (fun p => nodeId uid p.1)
  let nodes := pairs.map (fun p => Op.add_node (nodeId uid p.1) p.2 intent_type)
  let edges :=
    if (intent_type = "sequential" ∨ intent_type = "contrastive") ∧
        2 ≤ node_ids.length then chainEdges node_ids
    else if (intent_type = "relational" ∨ intent_type = "structural") ∧
        2 ≤ node_ids.length then
      match node_ids with
      | hub :: rest => hubEdges hub rest
      | [] => []
    else []
  nodes ++ edges

def joinSpace : List String → String
  | [] => ""
  | [s] => s
  | s :: rest => s ++ " " ++ joinSpace rest

def listMinZ : List ℤ → Option ℤ
  | [] => none
  | a :: as => some (as.foldl minZ a)

/-- `_dispatch(reason)`: emit one update from the pending buffer and reset
it.  (The source indexes `chunks[0]` and so is only ever called with a
non-empty buffer; the `headD`/`getLastD` defaults are never read by the
callers, which guard on non-emptiness.)  `wall_ms` stands for the
`time.time()` read. -/
def dispatch (st : EngineState) (reason : String) (wall_ms : ℤ) :
    StreamingUpdate × EngineState :=
  let uid := st.update_id + 1
  let chunks := st.pending
  let first := chunks.headD { timestamp_ms := 0, text := "" }
  let lastC := chunks.getLastD { timestamp_ms := 0, text := "" }
  let start_ms := first.timestamp_ms
  let end_ms := lastC.timestamp_ms
  let duration_ms := maxZ 0 (end_ms - start_ms)
  let joined := joinSpace
    (((chunks.map (fun c => String.mk (trimS c.text.data)))).filter (fun s => s ≠ ""))
  let toks := tokenize joined
  let cls := classify joined
  let keywords := extractKeywords joined.data toks
  let nv := semanticNovelty st.last_keywords keywords
  let new_wait_k := updateWaitK st.config cls.2.1 nv.1
  let operations := buildOps uid keywords cls.1
  let latency := match listMinZ st.pending_arrive_wall_ms with
    | some m => maxZ 0 (wall_ms - m)
    | none => 0
  ({ update_id := uid
     start_ms := start_ms
     end_ms := end_ms
     duration_ms := duration_ms
     boundary_reason := reason
     intent_type := cls.1
     intent_confidence := cls.2.1
     wait_k_used := new_wait_k
     token_count := toks.length
     chunk_count := chunks.length
     keywords := keywords
     operations := operations
     transcript_text := joined
     processing_latency_ms := latency },
   { st with
     pending := []
     pending_arrive_wall_ms := []
     pending_tokens := 0
     update_id := uid
     current_wait_k := new_wait_k
     last_keywords := nv.2
     latency_ms := st.latency_ms ++ [latency]
     update_duration_ms := st.update_duration_ms ++ [duration_ms]
     tokens_per_update := st.tokens_per_update ++ [toks.length]
     intent_counter := bumpCnt cls.1 st.intent_counter
     boundary_counter := bumpCnt reason st.boundary_counter })

def hardReasons : List String := ["max_window_ms", "silence_gap"]

/-- `gap_ms = max(0, chunk.timestamp_ms - last_chunk_ts)` (0 for the first
chunk). -/
def gapOf (st : EngineState) (chunk : TranscriptChunk) : ℤ :=
  match st.last_chunk_ts with
  | some t => maxZ 0 (chunk.timestamp_ms - t)
  | none => 0

/-- The buffer-append block of `ingest`: stamp `last_chunk_ts`, append the
chunk and its wall-clock arrival, add its token count. -/
def ingestStep (st : EngineState) (wall_ms : ℤ) (chunk : TranscriptChunk) :
    EngineState :=
  { st with
    last_chunk_ts := some chunk.timestamp_ms
    pending := st.pending ++ [chunk]
    pending_arrive_wall_ms := st.pending_arrive_wall_ms ++ [wall_ms]
    pending_tokens := st.pending_tokens + (tokenizeL (trimS chunk.text.data)).length }

/-- `ingest(chunk)`: reject blank text, append, evaluate the boundary
predicate, gate soft reasons on the wait-k pending count, dispatch. -/
def ingest (st : EngineState) (wall_ms : ℤ) (chunk : TranscriptChunk) :
    List StreamingUpdate × EngineState :=
  if (trimS chunk.text.data).isEmpty then ([], st)
  else
    match shouldDispatchReason (ingestStep st wall_ms chunk) chunk (gapOf st chunk) with
    | none => ([], ingestStep st wall_ms chunk)
    | some reason =>
      if ((ingestStep st wall_ms chunk).pending.length : ℤ) <
            (ingestStep st wall_ms chunk).current_wait_k ∧
          ¬ hardReasons.contains reason then ([], ingestStep st wall_ms chunk)
      else
        ([(dispatch (ingestStep st wall_ms chunk) reason wall_ms).1],
         (dispatch (ingestStep st wall_ms chunk) reason wall_ms).2)

/-- `flush()`: dispatch the tail segment with reason `stream_end`. -/
def flush (st : EngineState) (wall_ms : ℤ) :
    List StreamingUpdate × EngineState :=
  if st.pending.isEmpty then ([], st)
  else ([(dispatch st "stream_end" wall_ms).1], (dispatch st "stream_end" wall_ms).2)

theorem flush_of_empty (st : EngineState) (w : ℤ) (h : st.pending = []) :
    flush st w = ([], st) := by
  unfold flush
  rw [h]
  simp

theorem flush_reason_of_nonempty (st : EngineState) (w : ℤ)
    (h : st.pending ≠ []) :
    (flush st w).1.map (fun u => u.boundary_reason) = ["stream_end"] := by
  unfold flush
  rw [if_neg (by simp [List.isEmpty_iff, h])]
  rfl

theorem flush_clears_pending (st : EngineState) (w : ℤ) :
    (flush st w).2.pending = [] := by
  unfold flush
  split
  · rename_i h
    simpa [List.isEmpty_iff] using h
  · rfl

theorem single_ingest_no_update (wall : ℤ) (chunk : TranscriptChunk)
    (h : trimS chunk.text.data ≠ []) :
    (ingest (initEngine defaultConfig) wall chunk).1 = [] ∧
    (ingest (initEngine defaultConfig) wall chunk).2.pending = [chunk] := by
  have hrsn : ∀ r,
      shouldDispatchReason (ingestStep (initEngine defaultConfig) wall chunk) chunk
        (gapOf (initEngine defaultConfig) chunk) = some r →
      r = "sentence_end" ∨ r = "discourse_marker" ∨ r = "token_budget" := by
    intro r hr
    have hgap : gapOf (initEngine defaultConfig) chunk = 0 := rfl
    rw [hgap] at hr
    unfold shouldDispatchReason ingestStep at hr
    simp only [initEngine, defaultConfig] at hr
    split_ifs at hr <;> simp_all [maxZ]
  unfold ingest
  rw [if_neg (by simp [List.isEmpty_iff, h])]
  cases hm : shouldDispatchReason (ingestStep (initEngine defaultConfig) wall chunk)
      chunk (gapOf (initEngine defaultConfig) chunk) with
  | none => exact ⟨rfl, rfl⟩
  | some r =>
    rcases hrsn r hm with hr | hr | hr <;> subst hr <;> exact ⟨rfl, rfl⟩

/-- C5: `flush()` yields exactly one update, with boundary reason
`stream_end`, when the pending buffer is non-empty, and no update when it
is empty; after any flush the pending buffer is empty, so an immediately
repeated flush yields no update; and a single chunk ingested into a fresh
engine produces no update at ingest and exactly one `stream_end` update at
flush. -/
theorem C5_flush_monotonic (st : EngineState) (wall_ms wall2 : ℤ)
    (chunk : TranscriptChunk) :
    (st.pending = [] → flush st wall_ms = ([], st))
    ∧ (st.pending ≠ [] →
        (flush st wall_ms).1.map (fun u => u.boundary_reason) = ["stream_end"])
    ∧ (flush st wall_ms).2.pending = []
    ∧ flush (flush st wall_ms).2 wall2 = ([], (flush st wall_ms).2)
    ∧ (trimS chunk.text.data ≠ [] →
        (ingest (initEngine defaultConfig) wall_ms chunk).1 = [] ∧
        ((flush ((ingest (initEngine defaultConfig) wall_ms chunk).2) wall2).1.map
          (fun u => u.boundary_reason)) = ["stream_end"]) := by
  refine ⟨flush_of_empty st wall_ms, flush_reason_of_nonempty st wall_ms, 
    flush_clears_pending st wall_ms, 
    flush_of_empty _ wall2 (flush_clears_pending st wall_ms), ?_⟩
  intro h
  obtain ⟨h1, h2⟩ := single_ingest_no_update wall_ms chunk h
  refine ⟨h1, flush_reason_of_nonempty _ wall2 ?_⟩
  rw [h2]
  simp

def exChunk : TranscriptChunk := { timestamp_ms := 0, text := "hello world" }

def exLoaded : EngineState := ingestStep (initEngine defaultConfig) 0 exChunk

/-- Non-vacuity of `C5_flush_monotonic` on a loaded buffer and on the
single-chunk scenario. -/
theorem C5_flush_monotonic_witness :
    ((flush exLoaded 0).1.map (fun u => u.boundary_reason) = ["stream_end"]) ∧
    (flush exLoaded 0).2.pending = [] ∧
    flush (flush exLoaded 0).2 1 = ([], (flush exLoaded 0).2) ∧
    (ingest (initEngine defaultConfig) 0 exChunk).1 = [] ∧
    ((flush ((ingest (initEngine defaultConfig) 0 exChunk).2) 1).1.map
      (fun u => u.boundary_reason)) = ["stream_end"] :=
  ⟨(C5_flush_monotonic exLoaded 0 1 exChunk).2.1 (by decide),
   (C5_flush_monotonic exLoaded 0 1 exChunk).2.2.1,
   (C5_flush_monotonic exLoaded 0 1 exChunk).2.2.2.1,
   ((C5_flush_monotonic (initEngine defaultConfig) 0 1 exChunk).2.2.2.2 (by decide)).1,
   ((C5_flush_monotonic (initEngine defaultConfig) 0 1 exChunk).2.2.2.2 (by decide)).2⟩

/-- C9: a chunk whose text is empty or whitespace after trimming is not
buffered: ingest returns no updates and the engine state — buffer, token
count, last-seen timestamp, wait-k, counters, metrics — is exactly the
input state, and the (total) function raises nothing. -/
theorem C9_blank_chunk_ingest (st : EngineState) (wall_ms : ℤ)
    (chunk : TranscriptChunk) (h : trimS chunk.text.data = []) :
    ingest st wall_ms chunk = ([], st) := by
  unfold ingest
  rw [h]
  simp

/-- Non-vacuity of `C9_blank_chunk_ingest` on a whitespace chunk. -/
theorem C9_blank_chunk_ingest_witness :
    trimS (String.data "  \t ") = [] ∧
    ingest (initEngine defaultConfig) 7 { timestamp_ms := 5, text := "  \t " } =
      ([], initEngine defaultConfig) :=
  ⟨by decide,
   C9_blank_chunk_ingest (initEngine defaultConfig) 7 _ (by decide)⟩

theorem updateWaitK_cases (cfg : EngineConfig) (conf nov : ℚ) :
    updateWaitK cfg conf nov =
        maxZ cfg.min_wait_k (minZ (cfg.base_wait_k - 1) cfg.max_wait_k) ∨
    updateWaitK cfg conf nov =
        maxZ cfg.min_wait_k (minZ cfg.base_wait_k cfg.max_wait_k) ∨
    updateWaitK cfg conf nov =
        maxZ cfg.min_wait_k (minZ (cfg.base_wait_k + 1) cfg.max_wait_k) := by
  unfold updateWaitK
  split_ifs
  · refine Or.inr (Or.inl ?_)
    norm_num
  · exact Or.inr (Or.inr rfl)
  · exact Or.inl rfl
  · exact Or.inr (Or.inl rfl)

theorem updateWaitK_default (conf nov : ℚ) :
    updateWaitK defaultConfig conf nov = 1 ∨
    updateWaitK defaultConfig conf nov = 2 ∨
    updateWaitK defaultConfig conf nov = 3 := by
  rcases updateWaitK_cases defaultConfig conf nov with h | h | h <;> rw [h] <;>
    decide

/-- C6: after the wait-k update rule, the new `current_wait_k` (recorded
as `wait_k_used`) is `base_wait_k − 1`, `base_wait_k`, or
`base_wait_k + 1`, clamped to `[min_wait_k, max_wait_k]`; with the default
configuration (min 1, base 2, max 4) every dispatched update has
`wait_k_used ∈ {1, 2, 3}`, never reaching `max_wait_k = 4`, and
`wait_k_used` equals the engine's post-dispatch `current_wait_k`. -/
theorem C6_wait_k_bounds (cfg : EngineConfig) (conf nov : ℚ)
    (st : EngineState) (reason : String) (wall : ℤ) :
    (updateWaitK cfg conf nov =
        maxZ cfg.min_wait_k (minZ (cfg.base_wait_k - 1) cfg.max_wait_k) ∨
     updateWaitK cfg conf nov =
        maxZ cfg.min_wait_k (minZ cfg.base_wait_k cfg.max_wait_k) ∨
     updateWaitK cfg conf nov =
        maxZ cfg.min_wait_k (minZ (cfg.base_wait_k + 1) cfg.max_wait_k))
    ∧ (cfg = defaultConfig →
        updateWaitK cfg conf nov = 1 ∨ updateWaitK cfg conf nov = 2 ∨
          updateWaitK cfg conf nov = 3)
    ∧ (st.config = defaultConfig →
        ((dispatch st reason wall).1.wait_k_used = 1 ∨
         (dispatch st reason wall).1.wait_k_used = 2 ∨
         (dispatch st reason wall).1.wait_k_used = 3))
    ∧ (dispatch st reason wall).1.wait_k_used =
        (dispatch st reason wall).2.current_wait_k := by
  refine ⟨updateWaitK_cases cfg conf nov, ?_, ?_, rfl⟩
  · rintro rfl
    exact updateWaitK_default conf nov
  · intro hcfg
    have hwk : (dispatch st reason wall).1.wait_k_used =
        updateWaitK st.config
          (classify (joinSpace
            (((st.pending.map (fun c => String.mk (trimS c.text.data)))).filter
              (fun s => s ≠ "")))).2.1
          (semanticNovelty st.last_keywords
            (extractKeywords (joinSpace
              (((st.pending.map (fun c => String.mk (trimS c.text.data)))).filter
                (fun s => s ≠ ""))).data
              (tokenize (joinSpace
                (((st.pending.map (fun c => String.mk (trimS c.text.data)))).filter
                  (fun s => s ≠ "")))))).1 := rfl
    rw [hwk, hcfg]
    exact updateWaitK_default _ _

/-- Non-vacuity of `C6_wait_k_bounds` on a confident low-novelty update
and a real dispatch. -/
theorem C6_wait_k_bounds_witness :
    (updateWaitK defaultConfig (9/10) (1/5) = 1 ∨
     updateWaitK defaultConfig (9/10) (1/5) = 2 ∨
     updateWaitK defaultConfig (9/10) (1/5) = 3) ∧
    ((dispatch exLoaded "stream_end" 0).1.wait_k_used = 1 ∨
     (dispatch exLoaded "stream_end" 0).1.wait_k_used = 2 ∨
     (dispatch exLoaded "stream_end" 0).1.wait_k_used = 3) :=
  ⟨(C6_wait_k_bounds defaultConfig (9/10) (1/5) exLoaded "stream_end" 0).2.1 rfl,
   (C6_wait_k_bounds defaultConfig (9/10) (1/5) exLoaded "stream_end" 0).2.2.1 rfl⟩

/-- C4: the operation list is `add_node(u{uid}_n{i}, keyword_i, intent)`
for i = 1..min(6, |keywords|) followed by the intent-determined edges:
a chain n1→n2→…→nK for sequential/contrastive, hub n1→ni for
structural/relational, and no edges for classification/generic (or a
single node); when no keywords survive extraction the keyword list is
`["core_step"]` and the update carries that single node. -/
theorem C4_operation_synthesis (uid : ℕ) (kws : List String) (it : String)
    (text : List Char) (toks : List (List Char)) :
    ((kws.take 6).length = min 6 kws.length)
    ∧ ((buildOps uid kws it).take (kws.take 6).length =
        (List.range (kws.take 6).length).map
          (fun i => Op.add_node (nodeId uid (i + 1)) (kws.getD i "") it))
    ∧ ((it = "sequential" ∨ it = "contrastive") → 2 ≤ (kws.take 6).length →
        (buildOps uid kws it).drop (kws.take 6).length =
          (List.range ((kws.take 6).length - 1)).map
            (fun i => Op.add_edge (nodeId uid (i + 1)) (nodeId uid (i + 2))))
    ∧ ((it = "structural" ∨ it = "relational") → 2 ≤ (kws.take 6).length →
        (buildOps uid kws it).drop (kws.take 6).length =
          (List.range ((kws.take 6).length - 1)).map
            (fun i => Op.add_edge (nodeId uid 1) (nodeId uid (i + 2))))
    ∧ ((it = "classification" ∨ it = "generic") →
        (buildOps uid kws it).drop (kws.take 6).length = [])
    ∧ ((kws.take 6).length < 2 →
        (buildOps uid kws it).drop (kws.take 6).length = [])
    ∧ (extractMerged text toks = [] → extractKeywords text toks = ["core_step"])
    ∧ buildOps uid ["core_step"] it =
        [Op.add_node (nodeId uid 1) "core_step" it] := by
  have hfall : extractMerged text toks = [] →
      extractKeywords text toks = ["core_step"] := by
    intro h
    unfold extractKeywords
    rw [h]
    simp
  have hsingle : buildOps uid ["core_step"] it =
      [Op.add_node (nodeId uid 1) "core_step" it] := by
    simp [buildOps, enumFrom, chainEdges, hubEdges]
  refine ⟨(List.length_take 6 kws), ?_, ?_, ?_, ?_, ?_, hfall, hsingle⟩ <;>
  · rcases kws with _ | ⟨a, _ | ⟨b, _ | ⟨c, _ | ⟨d, _ | ⟨e, _ | ⟨f, rest⟩⟩⟩⟩⟩⟩ <;>
      first
      | (intro h1 h2 <;> rcases h1 with rfl | rfl <;>
          simp +decide [buildOps, enumFrom, chainEdges, hubEdges, List.range_succ])
      | (intro h1 <;>
          first
          | (rcases h1 with rfl | rfl <;>
              simp +decide [buildOps, enumFrom, chainEdges, hubEdges, List.range_succ])
          | simp_all +decide [buildOps, enumFrom, chainEdges, hubEdges, List.range_succ])
      | simp +decide [buildOps, enumFrom, chainEdges, hubEdges, List.range_succ]

/-- Non-vacuity of `C4_operation_synthesis`: hub-and-spoke edges on a
3-keyword structural update, and the `core_step` fallback on a text with
no surviving keywords. -/
theorem C4_operation_synthesis_witness :
    ((buildOps 1 ["gateway", "service", "module"] "structural").drop
        ((["gateway", "service", "module"].take 6).length) =
      (List.range ((["gateway", "service", "module"].take 6).length - 1)).map
        (fun i => Op.add_edge (nodeId 1 1) (nodeId 1 (i + 2)))) ∧
    extractKeywords (String.data "x") (tokenize "x") = ["core_step"] :=
  ⟨(C4_operation_synthesis 1 ["gateway", "service", "module"] "structural"
      [] []).2.2.2.1 (Or.inl rfl) (by decide),
   (C4_operation_synthesis 1 [] "structural" (String.data "x")
      (tokenize "x")).2.2.2.2.2.2.1 (by decide)⟩

theorem sdr_iffs (st1 : EngineState) (latest : TranscriptChunk) (g : ℤ)
    (hp : st1.pending ≠ []) :
    (shouldDispatchReason st1 latest g = some "silence_gap" ↔
      (st1.config.silence_boundary_ms ≤ g ∧
       st1.config.min_boundary_tokens ≤ st1.pending_tokens)) ∧
    (shouldDispatchReason st1 latest g = some "max_window_ms" ↔
      (¬ (st1.config.silence_boundary_ms ≤ g ∧
          st1.config.min_boundary_tokens ≤ st1.pending_tokens) ∧
       st1.config.max_window_ms ≤
         maxZ 0 (latest.timestamp_ms - (st1.pending.headD latest).timestamp_ms))) ∧
    (shouldDispatchReason st1 latest g = some "sentence_end" ↔
      (¬ (st1.config.silence_boundary_ms ≤ g ∧
          st1.config.min_boundary_tokens ≤ st1.pending_tokens) ∧
       ¬ st1.config.max_window_ms ≤
         maxZ 0 (latest.timestamp_ms - (st1.pending.headD latest).timestamp_ms) ∧
       (lastCharIn (trimS latest.text.data) SENTENCE_END_CHARS = true ∧
        st1.config.min_boundary_tokens ≤ st1.pending_tokens))) ∧
    (shouldDispatchReason st1 latest g = some "discourse_marker" ↔
      (¬ (st1.config.silence_boundary_ms ≤ g ∧
          st1.config.min_boundary_tokens ≤ st1.pending_tokens) ∧
       ¬ st1.config.max_window_ms ≤
         maxZ 0 (latest.timestamp_ms - (st1.pending.headD latest).timestamp_ms) ∧
       ¬ (lastCharIn (trimS latest.text.data) SENTENCE_END_CHARS = true ∧
          st1.config.min_boundary_tokens ≤ st1.pending_tokens) ∧
       (BOUNDARY_MARKERS.any
          (fun m => strHasPre m (lowerStr (trimS latest.text.data))) = true ∧
        st1.config.min_boundary_tokens ≤ st1.pending_tokens))) ∧
    (shouldDispatchReason st1 latest g = some "token_budget" ↔
      (¬ (st1.config.silence_boundary_ms ≤ g ∧
          st1.config.min_boundary_tokens ≤ st1.pending_tokens) ∧
       ¬ st1.config.max_window_ms ≤
         maxZ 0 (latest.timestamp_ms - (st1.pending.headD latest).timestamp_ms) ∧
       ¬ (lastCharIn (trimS latest.text.data) SENTENCE_END_CHARS = true ∧
          st1.config.min_boundary_tokens ≤ st1.pending_tokens) ∧
       ¬ (BOUNDARY_MARKERS.any
            (fun m => strHasPre m (lowerStr (trimS latest.text.data))) = true ∧
          st1.config.min_boundary_tokens ≤ st1.pending_tokens) ∧
       st1.current_wait_k * st1.config.token_budget_per_wait_k ≤
         (st1.pending_tokens : ℤ))) := by
  unfold shouldDispatchReason
  rw [if_neg hp]
  split_ifs <;> simp_all +decide <;> assumption

theorem ingest_cases (st : EngineState) (wall : ℤ) (chunk : TranscriptChunk)
    (h : trimS chunk.text.data ≠ []) :
    (shouldDispatchReason (ingestStep st wall chunk) chunk (gapOf st chunk) = none ∧
      ingest st wall chunk = ([], ingestStep st wall chunk))
    ∨ ∃ r, shouldDispatchReason (ingestStep st wall chunk) chunk (gapOf st chunk) = some r ∧
        ((((ingestStep st wall chunk).pending.length : ℤ) <
            (ingestStep st wall chunk).current_wait_k ∧
          ¬ hardReasons.contains r = true ∧
          ingest st wall chunk = ([], ingestStep st wall chunk))
         ∨ (¬ (((ingestStep st wall chunk).pending.length : ℤ) <
              (ingestStep st wall chunk).current_wait_k ∧
            ¬ hardReasons.contains r = true) ∧
          ingest st wall chunk =
            ([(dispatch (ingestStep st wall chunk) r wall).1],
             (dispatch (ingestStep st wall chunk) r wall).2))) := by
  unfold ingest
  rw [if_neg (by simp [List.isEmpty_iff, h])]
  cases hm : shouldDispatchReason (ingestStep st wall chunk) chunk (gapOf st chunk) with
  | none => exact Or.inl ⟨rfl, rfl⟩
  | some r =>
    refine Or.inr ⟨r, rfl, ?_⟩
    by_cases hg : (((ingestStep st wall chunk).pending.length : ℤ) <
        (ingestStep st wall chunk).current_wait_k ∧
      ¬ hardReasons.contains r = true)
    · left
      refine ⟨hg.1, hg.2, ?_⟩
      simp only [if_pos hg]
    · right
      refine ⟨hg, ?_⟩
      simp only [if_neg hg]

def silenceHolds (st : EngineState) (wall : ℤ) (chunk : TranscriptChunk) : Prop :=
  1200 ≤ gapOf st chunk ∧ 6 ≤ (ingestStep st wall chunk).pending_tokens

def windowHolds (st : EngineState) (wall : ℤ) (chunk : TranscriptChunk) : Prop :=
  3800 ≤ maxZ 0 (chunk.timestamp_ms -
    ((ingestStep st wall chunk).pending.headD chunk).timestamp_ms)

def sentenceHolds (st : EngineState) (wall : ℤ) (chunk : TranscriptChunk) : Prop :=
  lastCharIn (trimS chunk.text.data) SENTENCE_END_CHARS = true ∧
    6 ≤ (ingestStep st wall chunk).pending_tokens

def markerHolds (st : EngineState) (wall : ℤ) (chunk : TranscriptChunk) : Prop :=
  BOUNDARY_MARKERS.any
      (fun m => strHasPre m (lowerStr (trimS chunk.text.data))) = true ∧
    6 ≤ (ingestStep st wall chunk).pending_tokens

def budgetHolds (st : EngineState) (wall : ℤ) (chunk : TranscriptChunk) : Prop :=
  (ingestStep st wall chunk).current_wait_k * 18 ≤
    ((ingestStep st wall chunk).pending_tokens : ℤ)

def softGate (st : EngineState) (wall : ℤ) (chunk : TranscriptChunk) : Prop :=
  (ingestStep st wall chunk).current_wait_k ≤
    ((ingestStep st wall chunk).pending.length : ℤ)

/-- C1: with the default constants (SILENCE = 1200 ms, MAX_WIN = 3800 ms,
MIN_TOK = 6, BUDGET_PER_K = 18), the boundary predicate is evaluated in
the order silence_gap, max_window_ms, sentence_end, discourse_marker,
token_budget and the dispatched update's `boundary_reason` is the first
predicate that holds; the hard reasons silence_gap and max_window_ms
dispatch regardless of the pending chunk count, soft reasons dispatch only
when the pending chunk count is at least `current_wait_k`, and a holding
hard predicate is never shadowed by a soft reason; at most one update is
emitted per ingest. -/
theorem C1_boundary_priority (st : EngineState) (wall : ℤ) (chunk : TranscriptChunk)
    (hcfg : st.config = defaultConfig) (htext : trimS chunk.text.data ≠ []) :
    (silenceHolds st wall chunk →
      (ingest st wall chunk).1.map (fun u => u.boundary_reason) = ["silence_gap"])
    ∧ (¬ silenceHolds st wall chunk → windowHolds st wall chunk →
      (ingest st wall chunk).1.map (fun u => u.boundary_reason) = ["max_window_ms"])
    ∧ (∀ u ∈ (ingest st wall chunk).1,
        (u.boundary_reason = "sentence_end" →
          ¬ silenceHolds st wall chunk ∧ ¬ windowHolds st wall chunk ∧
            sentenceHolds st wall chunk ∧ softGate st wall chunk)
        ∧ (u.boundary_reason = "discourse_marker" →
          ¬ silenceHolds st wall chunk ∧ ¬ windowHolds st wall chunk ∧
            ¬ sentenceHolds st wall chunk ∧ markerHolds st wall chunk ∧
            softGate st wall chunk)
        ∧ (u.boundary_reason = "token_budget" →
          ¬ silenceHolds st wall chunk ∧ ¬ windowHolds st wall chunk ∧
            ¬ sentenceHolds st wall chunk ∧ ¬ markerHolds st wall chunk ∧
            budgetHolds st wall chunk ∧ softGate st wall chunk))
    ∧ (ingest st wall chunk).1.length ≤ 1 := by
  have hpne : (ingestStep st wall chunk).pending ≠ [] := by
    show st.pending ++ [chunk] ≠ []
    simp
  obtain ⟨i1, i2, i3, i4, i5⟩ :=
    sdr_iffs (ingestStep st wall chunk) chunk (gapOf st chunk) hpne
  have hcfg2 : (ingestStep st wall chunk).config = defaultConfig := by
    rw [show (ingestStep st wall chunk).config = st.config from rfl, hcfg]
  rw [hcfg2] at i1 i2 i3 i4 i5
  simp only [defaultConfig] at i1 i2 i3 i4 i5
  rcases ingest_cases st wall chunk htext with ⟨hm, heq⟩ |
    ⟨r, hm, ⟨hlt, hsoft, heq⟩ | ⟨hgate, heq⟩⟩
  · rw [heq]
    refine ⟨?_, ?_, ?_, ?_⟩
    · intro hP
      have h1 := i1.mpr hP
      rw [hm] at h1
      exact absurd h1 (by simp)
    · intro hnP hW
      have h2 := i2.mpr ⟨hnP, hW⟩
      rw [hm] at h2
      exact absurd h2 (by simp)
    · intro u hu
      simp at hu
    · simp
  · rw [heq]
    refine ⟨?_, ?_, ?_, ?_⟩
    · intro hP
      have h1 := i1.mpr hP
      rw [hm] at h1
      injection h1 with h1
      subst h1
      exact absurd (by decide : hardReasons.contains "silence_gap" = true) hsoft
    · intro hnP hW
      have h2 := i2.mpr ⟨hnP, hW⟩
      rw [hm] at h2
      injection h2 with h2
      subst h2
      exact absurd (by decide : hardReasons.contains "max_window_ms" = true) hsoft
    · intro u hu
      simp at hu
    · simp
  · rw [heq]
    have hgate' : ∀ s : String, r = s → hardReasons.contains s = false →
        softGate st wall chunk := by
      rintro s rfl hcont
      have hnl : ¬ (((ingestStep st wall chunk).pending.length : ℤ) <
          (ingestStep st wall chunk).current_wait_k) := by
        intro hlen
        refine hgate ⟨hlen, ?_⟩
        rw [hcont]
        simp
      exact not_lt.mp hnl
    refine ⟨?_, ?_, ?_, ?_⟩
    · intro hP
      have h1 := i1.mpr hP
      rw [hm] at h1
      injection h1 with h1
      subst h1
      rfl
    · intro hnP hW
      have h2 := i2.mpr ⟨hnP, hW⟩
      rw [hm] at h2
      injection h2 with h2
      subst h2
      rfl
    · intro u hu
      simp only [List.mem_singleton] at hu
      subst hu
      refine ⟨?_, ?_, ?_⟩
      · intro hre
        have hr : r = "sentence_end" := hre
        subst hr
        have h3 := i3.mp hm
        exact ⟨h3.1, h3.2.1, h3.2.2, hgate' _ rfl (by decide)⟩
      · intro hre
        have hr : r = "discourse_marker" := hre
        subst hr
        have h4 := i4.mp hm
        exact ⟨h4.1, h4.2.1, h4.2.2.1, h4.2.2.2, hgate' _ rfl (by decide)⟩
      · intro hre
        have hr : r = "token_budget" := hre
        subst hr
        have h5 := i5.mp hm
        exact ⟨h5.1, h5.2.1, h5.2.2.1, h5.2.2.2.1, h5.2.2.2.2, hgate' _ rfl (by decide)⟩
    · simp

def exSilFirst : TranscriptChunk :=
  { timestamp_ms := 0, text := "the payment module handles refunds" }

def exSilSecond : TranscriptChunk :=
  { timestamp_ms := 2000, text := "the ledger service records transactions" }

def exSilState : EngineState := (ingest (initEngine defaultConfig) 0 exSilFirst).2

/-- Non-vacuity of `C1_boundary_priority`: a 2000 ms silence gap with 8
pending tokens dispatches with reason `silence_gap`. -/
theorem C1_boundary_priority_witness :
    silenceHolds exSilState 10 exSilSecond ∧
    (ingest exSilState 10 exSilSecond).1.map (fun u => u.boundary_reason) =
      ["silence_gap"] :=
  ⟨by unfold silenceHolds; decide,
   (C1_boundary_priority exSilState 10 exSilSecond (by decide) (by decide)).1
     (by unfold silenceHolds; decide)⟩

/-! ## Incremental renderer (`incremental_renderer.py`)

The trigonometric placement functions (`cos∘radians`, `sin∘radians`) and
`math.hypot` are abstracted as parameters: the stability claims checked
here hold for every choice of these functions with `hypot 0 0 = 0`, which
subsumes the real ones. -/

structure Geo where
  cosd : ℤ → ℚ
  sind : ℤ → ℚ
  hyp : ℚ → ℚ → ℚ

structure NodeState where
  id : String
  label : String
  x : ℚ
  y : ℚ
  created_frame : ℕ
deriving DecidableEq

structure RenderFrame where
  frame_id : ℕ
  update_id : ℕ
  node_count : ℕ
  edge_count : ℕ
  touched_nodes : List String
  added_nodes : List String
  added_edges : ℕ
  flicker_index : ℚ
  mean_displacement : ℚ
  p95_displacement : ℚ
  unchanged_max_drift : ℚ
  mental_map_score : ℚ
deriving DecidableEq

/-- `IncrementalGraphRenderer` state; `nodes` is the insertion-ordered
dict. -/
structure Renderer where
  min_distance : ℚ
  local_relax_iters : ℕ
  mental_map_scale : ℚ
  nodes : List (String × NodeState)
  edges : List (String × String)
  frame_id : ℕ
  frames : List RenderFrame
deriving DecidableEq

/-- The constructor (with its defaults); `mental_map_scale` is clamped to
at least 1. -/
def mkRenderer (min_distance : ℚ := 80) (local_relax_iters : ℕ := 6)
    (mental_map_scale : ℚ := 32) : Renderer :=
  { min_distance := min_distance
    local_relax_iters := local_relax_iters
    mental_map_scale := maxQ mental_map_scale 1
    nodes := []
    edges := []
    frame_id := 0
    frames := [] }

/-- First-match association lookup (Python dict access). -/
def lookupN : List (String × NodeState) → String → Option NodeState
  | [], _ => none
  | p :: rest, k => if p.1 = k then some p.2 else lookupN rest k

/-- `self.nodes[nid].label = label`. -/
def setLabelN (nodes : List (String × NodeState)) (k : String)
    (label : String) : List (String × NodeState) :=
  nodes.map (fun p => if p.1 = k then (p.1, { p.2 with label := label }) else p)

/-- In-place position update of one node. -/
def setPosN (nodes : List (String × NodeState)) (k : String) (x y : ℚ) :
    List (String × NodeState) :=
  nodes.map (fun p => if p.1 = k then (p.1, { p.2 with x := x, y := y }) else p)

def lookupA : List (String × String) → String → Option String
  | [], _ => none
  | p :: rest, k => if p.1 = k then some p.2 else lookupA rest k

/-- `anchor_for_new`: first scan over the operations,
`setdefault(dst, src)` for well-formed `add_edge` ops. -/
def anchorsOf (ops : List Op) : List (String × String) :=
  ops.foldl (fun acc op =>
    match op with
    | .add_edge src0 dst0 =>
      let src := String.mk (trimS src0.data)
      let dst := String.mk (trimS dst0.data)
      if src ≠ "" ∧ dst ≠ "" then
        if (lookupA acc dst).isSome then acc else acc ++ [(dst, src)]
      else acc
    | _ => acc) []

/-- `_initial_position` when no usable anchor exists: intent-dependent
grid/polar placement at `idx = len(self.nodes)`. -/
def fallbackPos (geo : Geo) (nodes : List (String × NodeState))
    (intent_type : String) : ℚ × ℚ :=
  let idx := nodes.length
  if intent_type = "sequential" ∨ intent_type = "contrastive" then
    (((idx * 160 : ℕ) : ℚ), (((idx % 3) * 80 : ℕ) : ℚ))
  else if intent_type = "structural" ∨ intent_type = "relational" then
    ((120 + 16 * ((idx / 8 : ℕ) : ℚ)) * geo.cosd (((idx * 37) % 360 : ℕ) : ℤ),
     (120 + 16 * ((idx / 8 : ℕ) : ℚ)) * geo.sind (((idx * 37) % 360 : ℕ) : ℤ))
  else ((((idx % 8) * 140 : ℕ) : ℚ), (((idx / 8) * 90 : ℕ) : ℚ))

/-- `_initial_position(node_id, anchor_id, intent_type)`. -/
def initialPos (geo : Geo) (nodes : List (String × NodeState))
    (anchor_id : Option String) (intent_type : String) : ℚ × ℚ :=
  match anchor_id with
  | some aid =>
    if aid = "" then fallbackPos geo nodes intent_type
    else
      match lookupN nodes aid with
      | some anchor =>
        (anchor.x + (90 + 10 * (((nodes.length % 3 : ℕ)) : ℚ)) *
            geo.cosd (((nodes.length * 47) % 360 : ℕ) : ℤ),
         anchor.y + (90 + 10 * (((nodes.length % 3 : ℕ)) : ℚ)) *
            geo.sind (((nodes.length * 47) % 360 : ℕ) : ℤ))
      | none => fallbackPos geo nodes intent_type
  | none => fallbackPos geo nodes intent_type

structure ApplyAcc where
  nodes : List (String × NodeState)
  edges : List (String × String)
  touched : List String
  added : List String
  added_edges : ℕ

/-- Python `set.add` on the (insertion-ordered) touched set. -/
def addTouched (t : List String) (k : String) : List String :=
  if t.contains k then t else t ++ [k]

/-- The `if src/dst not in self.nodes:` auto-creation snippet inside the
`add_edge` case of `apply_update`: create the endpoint at its initial
position if missing. -/
def ensureNode (geo : Geo) (frame_id : ℕ) (intent_type : String)
    (anchor_id : Option String) (acc : ApplyAcc) (nid : String) : ApplyAcc :=
  match lookupN acc.nodes nid with
  | some _ => acc
  | none =>
    let pos := initialPos geo acc.nodes anchor_id intent_type
    { acc with
      nodes := acc.nodes ++
        [(nid, { id := nid, label := nid, x := pos.1, y := pos.2,
                 created_frame := frame_id })]
      touched := addTouched acc.touched nid
      added := acc.added ++ [nid] }

/-- One iteration of the operation-application loop of `apply_update`. -/
def applyOp (geo : Geo) (frame_id : ℕ) (intent_type : String)
    (anchors : List (String × String)) (acc : ApplyAcc) (op : Op) : ApplyAcc :=
  match op with
  | .add_node id0 label0 _intent =>
    let nid := String.mk (trimS id0.data)
    if nid = "" then acc
    else
      match lookupN acc.nodes nid with
      | some _ =>
        { acc with
          nodes := setLabelN acc.nodes nid label0
          touched := addTouched acc.touched nid }
      | none =>
        let pos := initialPos geo acc.nodes (lookupA anchors nid) intent_type
        { acc with
          nodes := acc.nodes ++
            [(nid, { id := nid, label := label0, x := pos.1, y := pos.2,
                     created_frame := frame_id })]
          touched := addTouched acc.touched nid
          added := acc.added ++ [nid] }
  | .add_edge src0 dst0 =>
    let src := String.mk (trimS src0.data)
    let dst := String.mk (trimS dst0.data)
    if src = "" ∨ dst = "" then acc
    else
      let acc2 := ensureNode geo frame_id intent_type (some src)
        (ensureNode geo frame_id intent_type none acc src) dst
      if acc2.edges.contains (src, dst) then acc2
      else { acc2 with
        edges := acc2.edges ++ [(src, dst)]
        added_edges := acc2.added_edges + 1 }

/-- `clamp(v·18, −24, +24)` per axis. -/
def clamp24 (v : ℚ) : ℚ := maxQ (-24) (minQ 24 v)

/-- Repulsive force on node `n` from every other node closer than
`min_distance`. -/
def relaxForce (geo : Geo) (md : ℚ) (nodes : List (String × NodeState))
    (nid : String) (n : NodeState) : ℚ × ℚ :=
  nodes.foldl (fun (f : ℚ × ℚ) p =>
    if p.1 = nid then f
    else
      let dx := n.x - p.2.x
      let dy := n.y - p.2.y
      let dist := geo.hyp dx dy + 1 / 1000000
      if dist < md then
        (f.1 + dx / dist * ((md - dist) / md),
         f.2 + dy / dist * ((md - dist) / md))
      else f) (0, 0)

def relaxNode (geo : Geo) (md : ℚ) (nodes : List (String × NodeState))
    (nid : String) : List (String × NodeState) :=
  match lookupN nodes nid with
  | none => nodes
  | some n =>
    let f := relaxForce geo md nodes nid n
    setPosN nodes nid (n.x + clamp24 (f.1 * 18)) (n.y + clamp24 (f.2 * 18))

def relaxPass (geo : Geo) (md : ℚ) (new_ids : List String)
    (nodes : List (String × NodeState)) : List (String × NodeState) :=
  new_ids.foldl (relaxNode geo md) nodes

def relaxIter (geo : Geo) (md : ℚ) (new_ids : List String) :
    ℕ → List (String × NodeState) → List (String × NodeState)
  | 0, ns => ns
  | k + 1, ns => relaxIter geo md new_ids k (relaxPass geo md new_ids ns)

/-- `_local_relax_new_nodes`: `local_relax_iters` sequential passes over
the newly added nodes only. -/
def localRelaxNewNodes (geo : Geo) (md : ℚ) (iters : ℕ)
    (new_ids : List String) (nodes : List (String × NodeState)) :
    List (String × NodeState) :=
  if new_ids = [] then nodes else relaxIter geo md new_ids iters nodes

def listMaxQ : List ℚ → ℚ
  | [] => 0
  | a :: as => as.foldl maxQ a

def sortStr (l : List String) : List String :=
  sortB (fun a b => lexLt a.data b.data) l

/-- `_build_frame_metrics`.  The Python set-intersection iteration order is
immaterial: every recorded scalar is order-independent, so `common` is
taken in `prev_pos` order. -/
def buildFrameMetrics (geo : Geo) (scale : ℚ) (frame_id update_id : ℕ)
    (prev_pos : List (String × (ℚ × ℚ))) (nodes : List (String × NodeState))
    (edge_count : ℕ) (touched added : List String) (added_edges : ℕ) :
    RenderFrame :=
  let common := prev_pos.filter (fun p => (lookupN nodes p.1).isSome)
  let dispOf := fun (p : String × (ℚ × ℚ)) =>
    match lookupN nodes p.1 with
    | some n => geo.hyp (n.x - p.2.1) (n.y - p.2.2)
    | none => 0
  let disps := common.map dispOf
  let unchanged := (common.filter (fun p => ¬ touched.contains p.1)).map dispOf
  let mean_disp := if disps.isEmpty then 0 else disps.sum / (disps.length : ℚ)
  { frame_id := frame_id
    update_id := update_id
    node_count := nodes.length
    edge_count := edge_count
    touched_nodes := sortStr touched
    added_nodes := added
    added_edges := added_edges
    flicker_index := pyRound (disps.sum / ((max common.length 1 : ℕ) : ℚ)) 4
    mean_displacement := pyRound mean_disp 4
    p95_displacement := pyRound (pctl disps 95) 4
    unchanged_max_drift := pyRound (listMaxQ unchanged) 4
    mental_map_score := pyRound (maxQ 0 (1 - mean_disp / scale)) 4 }

/-- `apply_update(update_id, operations, intent_type)`. -/
def applyUpdate (geo : Geo) (r : Renderer) (update_id : ℕ) (ops : List Op)
    (intent_type : String := "generic") : RenderFrame × Renderer :=
  let frame_id := r.frame_id + 1
  let prev_pos := r.nodes.map (fun p => (p.1, (p.2.x, p.2.y)))
  let acc := ops.foldl (applyOp geo frame_id intent_type (anchorsOf ops))
    { nodes := r.nodes, edges := r.edges, touched := [], added := [],
      added_edges := 0 }
  let relaxed := localRelaxNewNodes geo r.min_distance r.local_relax_iters
    acc.added acc.nodes
  let frame := buildFrameMetrics geo r.mental_map_scale frame_id update_id
    prev_pos relaxed acc.edges.length acc.touched acc.added acc.added_edges
  (frame,
   { r with
     nodes := relaxed
     edges := acc.edges
     frame_id := frame_id
     frames := r.frames ++ [frame] })
theorem lookupN_cons (p : String × NodeState) (rest : List (String × NodeState))
    (k : String) :
    lookupN (p :: rest) k = if p.1 = k then some p.2 else lookupN rest k := rfl

theorem setPosN_cons (p : String × NodeState) (rest : List (String × NodeState))
    (j : String) (x y : ℚ) :
    setPosN (p :: rest) j x y =
      (if p.1 = j then (p.1, { p.2 with x := x, y := y }) else p) ::
        setPosN rest j x y := by
  unfold setPosN
  rw [List.map_cons]

theorem setLabelN_cons (p : String × NodeState) (rest : List (String × NodeState))
    (j : String) (lb : String) :
    setLabelN (p :: rest) j lb =
      (if p.1 = j then (p.1, { p.2 with label := lb }) else p) ::
        setLabelN rest j lb := by
  unfold setLabelN
  rw [List.map_cons]

theorem lookupN_append_some (ns l : List (String × NodeState))
    (k : String) (n : NodeState) (h : lookupN ns k = some n) :
    lookupN (ns ++ l) k = some n := by
  induction ns with
  | nil => simp [lookupN] at h
  | cons p rest ih =>
    rw [List.cons_append, lookupN_cons]
    rw [lookupN_cons] at h
    split_ifs at h ⊢ with hp
    · exact h
    · exact ih h

theorem lookupN_setLabel (ns : List (String × NodeState)) (j lb k : String)
    (n : NodeState) (h : lookupN ns k = some n) :
    ∃ n', lookupN (setLabelN ns j lb) k = some n' ∧ n'.x = n.x ∧ n'.y = n.y := by
  induction ns with
  | nil => simp [lookupN] at h
  | cons p rest ih =>
    rw [lookupN_cons] at h
    rw [setLabelN_cons]
    by_cases hp : p.1 = k
    · rw [if_pos hp] at h
      injection h with h
      by_cases hj : p.1 = j
      · exact ⟨{ p.2 with label := lb }, by rw [if_pos hj, lookupN_cons, if_pos hp],
          by rw [← h], by rw [← h]⟩
      · exact ⟨n, by rw [if_neg hj, lookupN_cons, if_pos hp, h], rfl, rfl⟩
    · rw [if_neg hp] at h
      obtain ⟨n', hn', hx, hy⟩ := ih h
      refine ⟨n', ?_, hx, hy⟩
      split_ifs with hj
      · rw [lookupN_cons, if_neg hp]
        exact hn'
      · rw [lookupN_cons, if_neg hp]
        exact hn'

theorem lookupN_setPos_ne (ns : List (String × NodeState)) (j : String)
    (x y : ℚ) (k : String) (hk : k ≠ j) :
    lookupN (setPosN ns j x y) k = lookupN ns k := by
  induction ns with
  | nil => rfl
  | cons p rest ih =>
    rw [setPosN_cons]
    by_cases hj : p.1 = j
    · have hp : ¬ p.1 = k := fun hp => hk (by rw [← hp, hj])
      rw [if_pos hj, lookupN_cons, lookupN_cons]
      simp only [if_neg hp]
      exact ih
    · rw [if_neg hj, lookupN_cons, lookupN_cons]
      by_cases hp : p.1 = k
      · rw [if_pos hp, if_pos hp]
      · rw [if_neg hp, if_neg hp]
        exact ih

/-- Positions of the original nodes survive into the current node map
(labels may change). -/
def PosPreserved (orig cur : List (String × NodeState)) : Prop :=
  ∀ k n, lookupN orig k = some n →
    ∃ n', lookupN cur k = some n' ∧ n'.x = n.x ∧ n'.y = n.y

/-- Every id recorded in `added` was absent from the original node map. -/
def FreshAdded (orig : List (String × NodeState)) (added : List String) : Prop :=
  ∀ a ∈ added, lookupN orig a = none

theorem createStep_inv (orig nodesA : List (String × NodeState))
    (added : List String) (nid : String) (v : NodeState)
    (h1 : PosPreserved orig nodesA) (h2 : FreshAdded orig added)
    (hl : lookupN nodesA nid = none) :
    PosPreserved orig (nodesA ++ [(nid, v)]) ∧
    FreshAdded orig (added ++ [nid]) := by
  constructor
  · intro k n h
    obtain ⟨n', hn', hx, hy⟩ := h1 k n h
    exact ⟨n', lookupN_append_some _ _ _ _ hn', hx, hy⟩
  · intro a ha
    rcases List.mem_append.mp ha with ha | ha
    · exact h2 a ha
    · have ha : a = nid := by simpa using ha
      subst ha
      cases ho : lookupN orig a with
      | none => rfl
      | some m =>
        obtain ⟨n', hn', _, _⟩ := h1 a m ho
        rw [hl] at hn'
        cases hn'

theorem ensureNode_inv (geo : Geo) (fid : ℕ) (it : String)
    (anch : Option String) (orig : List (String × NodeState)) (acc : ApplyAcc)
    (nid : String)
    (h1 : PosPreserved orig acc.nodes) (h2 : FreshAdded orig acc.added) :
    PosPreserved orig (ensureNode geo fid it anch acc nid).nodes ∧
    FreshAdded orig (ensureNode geo fid it anch acc nid).added := by
  unfold ensureNode
  cases hl : lookupN acc.nodes nid with
  | some m => exact ⟨h1, h2⟩
  | none => exact createStep_inv orig acc.nodes acc.added _ _ h1 h2 hl

theorem applyOp_inv (geo : Geo) (fid : ℕ) (it : String)
    (anchors : List (String × String)) (orig : List (String × NodeState))
    (acc : ApplyAcc) (op : Op)
    (h1 : PosPreserved orig acc.nodes) (h2 : FreshAdded orig acc.added) :
    PosPreserved orig (applyOp geo fid it anchors acc op).nodes ∧
    FreshAdded orig (applyOp geo fid it anchors acc op).added := by
  cases op with
  | add_node id0 lb i0 =>
    simp only [applyOp]
    split_ifs with hnid
    · exact ⟨h1, h2⟩
    · cases hl : lookupN acc.nodes (String.mk (trimS id0.data)) with
      | some m =>
        refine ⟨?_, h2⟩
        intro k n h
        obtain ⟨n', hn', hx, hy⟩ := h1 k n h
        obtain ⟨n'', hn'', hx', hy'⟩ := lookupN_setLabel acc.nodes _ lb k n' hn'
        exact ⟨n'', hn'', hx'.trans hx, hy'.trans hy⟩
      | none =>
        exact createStep_inv orig acc.nodes acc.added _ _ h1 h2 hl
  | add_edge src0 dst0 =>
    simp only [applyOp]
    split_ifs with hempty hedge
    · exact ⟨h1, h2⟩
    · obtain ⟨hB1, hB2⟩ := ensureNode_inv geo fid it none orig acc
        (String.mk (trimS src0.data)) h1 h2
      exact ensureNode_inv geo fid it _ orig _ (String.mk (trimS dst0.data)) hB1 hB2
    · obtain ⟨hB1, hB2⟩ := ensureNode_inv geo fid it none orig acc
        (String.mk (trimS src0.data)) h1 h2
      exact ensureNode_inv geo fid it _ orig _ (String.mk (trimS dst0.data)) hB1 hB2

theorem foldOps_inv (geo : Geo) (fid : ℕ) (it : String)
    (anchors : List (String × String)) (orig : List (String × NodeState))
    (ops : List Op) (acc : ApplyAcc)
    (h1 : PosPreserved orig acc.nodes) (h2 : FreshAdded orig acc.added) :
    PosPreserved orig (ops.foldl (applyOp geo fid it anchors) acc).nodes ∧
    FreshAdded orig (ops.foldl (applyOp geo fid it anchors) acc).added := by
  induction ops generalizing acc with
  | nil => exact ⟨h1, h2⟩
  | cons op rest ih =>
    rw [List.foldl_cons]
    obtain ⟨h1', h2'⟩ := applyOp_inv geo fid it anchors orig acc op h1 h2
    exact ih _ h1' h2'

theorem relaxNode_lookup_ne (geo : Geo) (md : ℚ)
    (ns : List (String × NodeState)) (nid k : String) (hk : k ≠ nid) :
    lookupN (relaxNode geo md ns nid) k = lookupN ns k := by
  unfold relaxNode
  cases hl : lookupN ns nid with
  | none => rfl
  | some n => exact lookupN_setPos_ne ns nid _ _ k hk

theorem relaxPass_lookup_notin (geo : Geo) (md : ℚ) (new_ids : List String)
    (ns : List (String × NodeState)) (k : String) (hk : k ∉ new_ids) :
    lookupN (relaxPass geo md new_ids ns) k = lookupN ns k := by
  induction new_ids generalizing ns with
  | nil => rfl
  | cons a as ih =>
    unfold relaxPass
    rw [List.foldl_cons]
    have hka : k ≠ a := fun h => hk (h ▸ List.mem_cons_self a as)
    have hkas : k ∉ as := fun h => hk (List.mem_cons_of_mem a h)
    have := ih (relaxNode geo md ns a) hkas
    unfold relaxPass at this
    rw [this]
    exact relaxNode_lookup_ne geo md ns a k hka

theorem relaxIter_lookup_notin (geo : Geo) (md : ℚ) (new_ids : List String)
    (iters : ℕ) (ns : List (String × NodeState)) (k : String)
    (hk : k ∉ new_ids) :
    lookupN (relaxIter geo md new_ids iters ns) k = lookupN ns k := by
  induction iters generalizing ns with
  | zero => rfl
  | succ m ih =>
    unfold relaxIter
    rw [ih (relaxPass geo md new_ids ns)]
    exact relaxPass_lookup_notin geo md new_ids ns k hk

theorem localRelax_lookup_notin (geo : Geo) (md : ℚ) (iters : ℕ)
    (new_ids : List String) (ns : List (String × NodeState)) (k : String)
    (hk : k ∉ new_ids) :
    lookupN (localRelaxNewNodes geo md iters new_ids ns) k = lookupN ns k := by
  unfold localRelaxNewNodes
  split_ifs
  · rfl
  · exact relaxIter_lookup_notin geo md new_ids iters ns k hk

theorem lookupN_of_mem_nodup (ns : List (String × NodeState)) (k : String)
    (n : NodeState) (hnd : (ns.map (fun p => p.1)).Nodup) (hmem : (k, n) ∈ ns) :
    lookupN ns k = some n := by
  induction ns with
  | nil => simp at hmem
  | cons p rest ih =>
    rw [lookupN_cons]
    rw [List.map_cons, List.nodup_cons] at hnd
    rcases List.mem_cons.mp hmem with h | h
    · rw [← h]
      simp
    · have hp : p.1 ≠ k := by
        intro he
        exact hnd.1 (he ▸ List.mem_map.mpr ⟨(k, n), h, rfl⟩)
      rw [if_neg hp]
      exact ih hnd.2 h

theorem foldl_maxQ_zero (l : List ℚ) (h : ∀ x ∈ l, x = 0) :
    l.foldl maxQ 0 = 0 := by
  induction l with
  | nil => rfl
  | cons a as ih =>
    rw [List.foldl_cons, h a (List.mem_cons_self a as)]
    have : maxQ 0 0 = 0 := by unfold maxQ; simp
    rw [this]
    exact ih (fun x hx => h x (List.mem_cons_of_mem a hx))

theorem listMaxQ_zero (l : List ℚ) (h : ∀ x ∈ l, x = 0) : listMaxQ l = 0 := by
  cases l with
  | nil => rfl
  | cons a as =>
    unfold listMaxQ
    rw [h a (List.mem_cons_self a as)]
    exact foldl_maxQ_zero as (fun x hx => h x (List.mem_cons_of_mem a hx))

theorem pyRound_zero : pyRound 0 4 = 0 := by
  norm_num [pyRound, rndHE]

theorem pyRound_one : pyRound 1 4 = 1 := by
  norm_num [pyRound, rndHE]

theorem buildFrameMetrics_stable (geo : Geo) (scale : ℚ) (fid uid : ℕ)
    (prev_pos : List (String × (ℚ × ℚ))) (nodes : List (String × NodeState))
    (ec : ℕ) (touched added : List String) (ae : ℕ)
    (hzero : ∀ p ∈ prev_pos,
      (match lookupN nodes p.1 with
       | some n => geo.hyp (n.x - p.2.1) (n.y - p.2.2)
       | none => 0) = 0) :
    (buildFrameMetrics geo scale fid uid prev_pos nodes ec touched added
      ae).unchanged_max_drift = 0 ∧
    (buildFrameMetrics geo scale fid uid prev_pos nodes ec touched added
      ae).mental_map_score = 1 := by
  have hd : ∀ x ∈ (prev_pos.filter
      (fun p => (lookupN nodes p.1).isSome)).map
        (fun p => match lookupN nodes p.1 with
          | some n => geo.hyp (n.x - p.2.1) (n.y - p.2.2)
          | none => 0), x = 0 := by
    intro x hx
    obtain ⟨p, hp, he⟩ := List.mem_map.mp hx
    rw [← he]
    exact hzero p (List.mem_filter.mp hp).1
  have hu : ∀ x ∈ ((prev_pos.filter
      (fun p => (lookupN nodes p.1).isSome)).filter
        (fun p => ¬ touched.contains p.1)).map
        (fun p => match lookupN nodes p.1 with
          | some n => geo.hyp (n.x - p.2.1) (n.y - p.2.2)
          | none => 0), x = 0 := by
    intro x hx
    obtain ⟨p, hp, he⟩ := List.mem_map.mp hx
    rw [← he]
    exact hzero p (List.mem_filter.mp (List.mem_filter.mp hp).1).1
  have hsum : ((prev_pos.filter
      (fun p => (lookupN nodes p.1).isSome)).map
        (fun p => match lookupN nodes p.1 with
          | some n => geo.hyp (n.x - p.2.1) (n.y - p.2.2)
          | none => 0)).sum = 0 := List.sum_eq_zero hd
  unfold buildFrameMetrics
  constructor
  · show pyRound (listMaxQ _) 4 = 0
    rw [listMaxQ_zero _ hu]
    exact pyRound_zero
  · show pyRound (maxQ 0 (1 - _ / scale)) 4 = 1
    have hmean : (if ((prev_pos.filter
        (fun p => (lookupN nodes p.1).isSome)).map
          (fun p => match lookupN nodes p.1 with
            | some n => geo.hyp (n.x - p.2.1) (n.y - p.2.2)
            | none => 0)).isEmpty then (0 : ℚ)
      else ((prev_pos.filter
        (fun p => (lookupN nodes p.1).isSome)).map
          (fun p => match lookupN nodes p.1 with
            | some n => geo.hyp (n.x - p.2.1) (n.y - p.2.2)
            | none => 0)).sum /
        (((prev_pos.filter
          (fun p => (lookupN nodes p.1).isSome)).map
            (fun p => match lookupN nodes p.1 with
              | some n => geo.hyp (n.x - p.2.1) (n.y - p.2.2)
              | none => 0)).length : ℚ)) = 0 := by
      split_ifs
      · rfl
      · rw [hsum]
        exact zero_div _
    rw [hmean]
    have : maxQ 0 (1 - 0 / scale) = 1 := by
      rw [zero_div, sub_zero]
      unfold maxQ
      norm_num
    rw [this]
    exact pyRound_one

/-- C2: every node that existed before an `apply_update` call keeps exactly
the position it had before the call (only nodes added by that update are
moved by local relaxation); consequently every emitted `RenderFrame` has
`unchanged_max_drift = 0` and `mental_map_score = 1 ≥ 0.85`.  Stated for
any geometry with `hypot 0 0 = 0` and any renderer state whose node map
has (dict-like) distinct keys. -/
theorem C2_renderer_stability (geo : Geo) (r : Renderer) (uid : ℕ) (ops : List Op)
    (it : String) (hyp0 : geo.hyp 0 0 = 0)
    (hnd : (r.nodes.map (fun p => p.1)).Nodup) :
    (∀ k n, lookupN r.nodes k = some n →
      ∃ n', lookupN (applyUpdate geo r uid ops it).2.nodes k = some n' ∧
        n'.x = n.x ∧ n'.y = n.y)
    ∧ (applyUpdate geo r uid ops it).1.unchanged_max_drift = 0
    ∧ (applyUpdate geo r uid ops it).1.mental_map_score = 1
    ∧ (0.85 : ℚ) ≤ (applyUpdate geo r uid ops it).1.mental_map_score := by
  obtain ⟨hP, hF⟩ := foldOps_inv geo (r.frame_id + 1) it (anchorsOf ops) r.nodes
    ops { nodes := r.nodes, edges := r.edges, touched := [], added := [],
          added_edges := 0 }
    (fun k n h => ⟨n, h, rfl, rfl⟩) (fun a ha => by simp at ha)
  have hpres : ∀ k n, lookupN r.nodes k = some n →
      ∃ n', lookupN (localRelaxNewNodes geo r.min_distance r.local_relax_iters
        (ops.foldl (applyOp geo (r.frame_id + 1) it (anchorsOf ops))
          { nodes := r.nodes, edges := r.edges, touched := [], added := [],
            added_edges := 0 }).added
        (ops.foldl (applyOp geo (r.frame_id + 1) it (anchorsOf ops))
          { nodes := r.nodes, edges := r.edges, touched := [], added := [],
            added_edges := 0 }).nodes) k = some n' ∧
        n'.x = n.x ∧ n'.y = n.y := by
    intro k n h
    obtain ⟨n', hn', hx, hy⟩ := hP k n h
    have hnotin : k ∉ (ops.foldl (applyOp geo (r.frame_id + 1) it (anchorsOf ops))
        { nodes := r.nodes, edges := r.edges, touched := [], added := [],
          added_edges := 0 }).added := by
      intro hin
      rw [hF k hin] at h
      cases h
    rw [localRelax_lookup_notin geo r.min_distance r.local_relax_iters _ _ k hnotin]
    exact ⟨n', hn', hx, hy⟩
  have hzero : ∀ p ∈ r.nodes.map (fun p => (p.1, (p.2.x, p.2.y))),
      (match lookupN (localRelaxNewNodes geo r.min_distance r.local_relax_iters
        (ops.foldl (applyOp geo (r.frame_id + 1) it (anchorsOf ops))
          { nodes := r.nodes, edges := r.edges, touched := [], added := [],
            added_edges := 0 }).added
        (ops.foldl (applyOp geo (r.frame_id + 1) it (anchorsOf ops))
          { nodes := r.nodes, edges := r.edges, touched := [], added := [],
            added_edges := 0 }).nodes) p.1 with
       | some n => geo.hyp (n.x - p.2.1) (n.y - p.2.2)
       | none => 0) = 0 := by
    intro p hp
    obtain ⟨q, hq, he⟩ := List.mem_map.mp hp
    have hl : lookupN r.nodes q.1 = some q.2 := lookupN_of_mem_nodup _ _ _ hnd
      (by rw [show (q.1, q.2) = q from rfl]; exact hq)
    obtain ⟨n', hn', hx, hy⟩ := hpres q.1 q.2 hl
    rw [← he]
    simp only
    rw [hn']
    show geo.hyp (n'.x - q.2.x) (n'.y - q.2.y) = 0
    rw [hx, hy]
    simp [hyp0]
  have hm := buildFrameMetrics_stable geo r.mental_map_scale (r.frame_id + 1) uid
    (r.nodes.map (fun p => (p.1, (p.2.x, p.2.y))))
    (localRelaxNewNodes geo r.min_distance r.local_relax_iters
      (ops.foldl (applyOp geo (r.frame_id + 1) it (anchorsOf ops))
        { nodes := r.nodes, edges := r.edges, touched := [], added := [],
          added_edges := 0 }).added
      (ops.foldl (applyOp geo (r.frame_id + 1) it (anchorsOf ops))
        { nodes := r.nodes, edges := r.edges, touched := [], added := [],
          added_edges := 0 }).nodes)
    (ops.foldl (applyOp geo (r.frame_id + 1) it (anchorsOf ops))
      { nodes := r.nodes, edges := r.edges, touched := [], added := [],
        added_edges := 0 }).edges.length
    (ops.foldl (applyOp geo (r.frame_id + 1) it (anchorsOf ops))
      { nodes := r.nodes, edges := r.edges, touched := [], added := [],
        added_edges := 0 }).touched
    (ops.foldl (applyOp geo (r.frame_id + 1) it (anchorsOf ops))
      { nodes := r.nodes, edges := r.edges, touched := [], added := [],
        added_edges := 0 }).added
    (ops.foldl (applyOp geo (r.frame_id + 1) it (anchorsOf ops))
      { nodes := r.nodes, edges := r.edges, touched := [], added := [],
        added_edges := 0 }).added_edges hzero
  exact ⟨hpres, hm.1, hm.2, by rw [show (applyUpdate geo r uid ops it).1.mental_map_score = 1 from hm.2]; norm_num⟩

def exGeo : Geo :=
  { cosd := fun _ => 0, sind := fun _ => 0, hyp := fun a b => a * a + b * b }

def exRenderer : Renderer :=
  { mkRenderer with
    nodes := [("n0", { id := "n0", label := "n0", x := 5, y := 7,
                       created_frame := 1 })]
    frame_id := 1 }

/-- Non-vacuity of `C2_renderer_stability`: a second-frame update on a
renderer with one pre-existing node. -/
theorem C2_renderer_stability_witness :
    exGeo.hyp 0 0 = 0 ∧
    (exRenderer.nodes.map (fun p => p.1)).Nodup ∧
    (applyUpdate exGeo exRenderer 2 [Op.add_node "u2_n1" "core_step" "generic"]
      "generic").1.unchanged_max_drift = 0 ∧
    (applyUpdate exGeo exRenderer 2 [Op.add_node "u2_n1" "core_step" "generic"]
      "generic").1.mental_map_score = 1 :=
  ⟨by norm_num [exGeo], by decide,
   (C2_renderer_stability exGeo exRenderer 2
     [Op.add_node "u2_n1" "core_step" "generic"] "generic"
     (by norm_num [exGeo]) (by decide)).2.1,
   (C2_renderer_stability exGeo exRenderer 2
     [Op.add_node "u2_n1" "core_step" "generic"] "generic"
     (by norm_num [exGeo]) (by decide)).2.2.1⟩

end Stream2Graph
